import Mathlib

/-!
# s3uploader: the multipart upload orchestrator of `main.go`

A shallow embedding of `uploadPart`, `abortMultipartUpload`,
`completeMultipartUpload` and the orchestration part of `main`
(from the `CreateMultipartUpload` call to the end), followed by theorems about them.

Conventions of the embedding.

* The S3 client `svc` is a deterministic state machine over an arbitrary state
  type `σ`: every SDK operation maps its input and the current service state to a
  response and a next state.  Nothing is assumed about the responses.
* Every function returns, besides its Go result, the next service state and the
  chronological list of `Event`s it produced: the SDK calls with their responses,
  the lines written to standard output, and one marker per `uploadPart` call site.
* Go pointers are `Option`s (`nil` is `none`).  A run-time panic (a slice
  expression out of range, a nil dereference) is an explicit result.
* `int64` byte counts are `Nat`: the size of a file is not negative,
  `nextLength_le_remaining` shows that `remaining -= partLength` never goes below
  zero, and `uploadLoop_ranges_within` shows that every `curr + partLength` stays at
  most the file size, so with a size below `2 ^ 63` no operation wraps.
  `uploadLoop_panics_only_without_upload_id` shows that the slice expression never
  panics.  The Go `int` part number is an `Int`.
-/

namespace S3Uploader

/-! ## Constants (main.go, lines 17-20) -/

/-- Constant `maxPartSize = int64(5 * 1024 * 1024)`. -/
def maxPartSize : Nat := 5 * 1024 * 1024

/-- Constant `maxRetries = 10`. -/
def maxRetries : Nat := 10

/-! ## Data of the SDK -/

/-- One byte of the file buffer. -/
abbrev Byte := Fin 256

/-- A Go `error` value: its text, and whether its dynamic type implements
`awserr.Error` (what the type assertion `err.(awserr.Error)` tests). -/
structure GoError where
  isAwsErr : Bool
  message : String
  deriving DecidableEq, Repr

/-- Go type `s3.CreateMultipartUploadInput`, the fields the program sets. -/
structure CreateMultipartUploadInput where
  Bucket : Option String
  Key : Option String
  ContentType : Option String
  deriving DecidableEq, Repr

/-- Go type `s3.CreateMultipartUploadOutput`, the fields the program reads. -/
structure CreateMultipartUploadOutput where
  Bucket : Option String
  Key : Option String
  UploadId : Option String
  deriving DecidableEq, Repr

/-- Go type `s3.UploadPartInput`, the fields the program sets. -/
structure UploadPartInput where
  Body : List Byte
  Bucket : Option String
  Key : Option String
  PartNumber : Option Int
  UploadId : Option String
  ContentLength : Option Int
  deriving DecidableEq, Repr

/-- Go type `s3.UploadPartOutput`, the field the program reads. -/
structure UploadPartOutput where
  ETag : Option String
  deriving DecidableEq, Repr

/-- Go type `s3.CompletedPart`. -/
structure CompletedPart where
  ETag : Option String
  PartNumber : Option Int
  deriving DecidableEq, Repr

/-- Go type `s3.CompleteMultipartUploadInput`; `Parts` is the slice
`MultipartUpload.Parts` of type `[]*s3.CompletedPart`, whose entries are pointers. -/
structure CompleteMultipartUploadInput where
  Bucket : Option String
  Key : Option String
  UploadId : Option String
  Parts : List (Option CompletedPart)
  deriving DecidableEq, Repr

/-- Go type `s3.CompleteMultipartUploadOutput`, reduced to what `String()` prints. -/
structure CompleteMultipartUploadOutput where
  text : String
  deriving DecidableEq, Repr

/-- Go type `s3.AbortMultipartUploadInput`. -/
structure AbortMultipartUploadInput where
  Bucket : Option String
  Key : Option String
  UploadId : Option String
  deriving DecidableEq, Repr

/-- Response of an SDK operation: the Go pair `(output, err)` with `err != nil`
(`failed`) or `err == nil` (`ok`). -/
inductive Resp (α : Type) where
  | failed (err : GoError)
  | ok (out : α)
  deriving DecidableEq, Repr

/-- The client `svc *s3.S3` with the four operations the program calls. -/
structure S3 (σ : Type) where
  CreateMultipartUpload : CreateMultipartUploadInput → σ → Resp CreateMultipartUploadOutput × σ
  UploadPart : UploadPartInput → σ → Resp UploadPartOutput × σ
  CompleteMultipartUpload :
    CompleteMultipartUploadInput → σ → Resp CompleteMultipartUploadOutput × σ
  AbortMultipartUpload : AbortMultipartUploadInput → σ → Option GoError × σ

/-! ## Observable events -/

/-- A line written to standard output, by the statement that writes it. -/
inductive LogLine where
  /-- Line 98: `fmt.Println("Created multipart upload request")`. -/
  | createdRequest
  /-- Lines 95, 112, 115, 126: `fmt.Println(err.Error())`. -/
  | errorText (err : GoError)
  /-- Line 172: `fmt.Printf("Retrying to upload part #%v\n", partNumber)`. -/
  | retrying (partNumber : Int)
  /-- Line 175: `fmt.Printf("Uploaded part #%v, ETag: %s\n", partNumber, valueOr(..))`. -/
  | uploaded (partNumber : Int) (etag : String)
  /-- Line 186: `fmt.Println("Aborting multipart upload for UploadId#" + *resp.UploadId)`. -/
  | aborting (uploadId : String)
  /-- Line 130: `fmt.Printf("Successfully uploaded file: %s\n", completeResponse.String())`. -/
  | uploadedFile (response : String)
  deriving DecidableEq, Repr

/-- The text of a log line. -/
def LogLine.render : LogLine → String
  | .createdRequest => "Created multipart upload request\n"
  | .errorText err => err.message ++ "\n"
  | .retrying partNumber => "Retrying to upload part #" ++ toString partNumber ++ "\n"
  | .uploaded partNumber etag =>
      "Uploaded part #" ++ toString partNumber ++ ", ETag: " ++ etag ++ "\n"
  | .aborting uploadId => "Aborting multipart upload for UploadId#" ++ uploadId ++ "\n"
  | .uploadedFile response => "Successfully uploaded file: " ++ response ++ "\n"

/-- What a run does that can be observed from outside, in order. -/
inductive Event where
  | print (line : LogLine)
  | createMultipartUpload (input : CreateMultipartUploadInput)
      (resp : Resp CreateMultipartUploadOutput)
  | uploadPart (input : UploadPartInput) (resp : Resp UploadPartOutput)
  | completeMultipartUpload (input : CompleteMultipartUploadInput)
      (resp : Resp CompleteMultipartUploadOutput)
  | abortMultipartUpload (input : AbortMultipartUploadInput) (err : Option GoError)
  /-- Marker of the call site on line 110:
  `uploadPart(svc, resp, buffer[curr:curr+partLength], partNumber)`. -/
  | partRange (curr partLength : Nat) (partNumber : Int)
  deriving DecidableEq, Repr

/-- Result of running a piece of the program: its Go result, the service state
afterwards and the events produced. -/
structure Run (σ α : Type) where
  val : α
  state : σ
  events : List Event

/-! ## The functions of main.go -/

/-- Function `valueOr` (lines 145-150). -/
def valueOr {A : Type} (a : Option A) (d : A) : A :=
  match a with
  | none => d
  | some x => x

/-- Function `completeMultipartUpload` (lines 133-143). -/
def completeMultipartUpload {σ : Type} (svc : S3 σ) (resp : CreateMultipartUploadOutput)
    (completedParts : List (Option CompletedPart)) (s : σ) :
    Run σ (Resp CompleteMultipartUploadOutput) :=
  let completeInput : CompleteMultipartUploadInput :=
    { Bucket := resp.Bucket, Key := resp.Key, UploadId := resp.UploadId,
      Parts := completedParts }
  let r := svc.CompleteMultipartUpload completeInput s
  ⟨r.1, r.2, [Event.completeMultipartUpload completeInput r.1]⟩

/-- The `for tryNum <= maxRetries` loop of `uploadPart` (lines 163-182), entered
with the given value of `tryNum`.  The result is the Go pair
`(*s3.CompletedPart, error)`. -/
def uploadPartLoop {σ : Type} (svc : S3 σ) (partInput : UploadPartInput) (partNumber : Int)
    (tryNum : Nat) (s : σ) : Run σ (Option CompletedPart × Option GoError) :=
  if _h : tryNum ≤ maxRetries then
    match svc.UploadPart partInput s with
    | (Resp.failed err, s1) =>
      if tryNum = maxRetries then
        if err.isAwsErr then
          ⟨(none, some err), s1, [Event.uploadPart partInput (Resp.failed err)]⟩
        else
          ⟨(none, some err), s1, [Event.uploadPart partInput (Resp.failed err)]⟩
      else
        let r := uploadPartLoop svc partInput partNumber (tryNum + 1) s1
        ⟨r.val, r.state,
          Event.uploadPart partInput (Resp.failed err)
            :: Event.print (LogLine.retrying partNumber) :: r.events⟩
    | (Resp.ok uploadResult, s1) =>
      ⟨(some { ETag := uploadResult.ETag, PartNumber := some partNumber }, none), s1,
        [Event.uploadPart partInput (Resp.ok uploadResult),
         Event.print (LogLine.uploaded partNumber (valueOr uploadResult.ETag "<nil>"))]⟩
  else
    ⟨(none, none), s, []⟩
termination_by maxRetries + 1 - tryNum

/-- Function `uploadPart` (lines 152-183). -/
def uploadPart {σ : Type} (svc : S3 σ) (resp : CreateMultipartUploadOutput)
    (fileBytes : List Byte) (partNumber : Int) (s : σ) :
    Run σ (Option CompletedPart × Option GoError) :=
  let partInput : UploadPartInput :=
    { Body := fileBytes, Bucket := resp.Bucket, Key := resp.Key,
      PartNumber := some partNumber, UploadId := resp.UploadId,
      ContentLength := some (fileBytes.length : Int) }
  uploadPartLoop svc partInput partNumber 1 s

/-- Function `abortMultipartUpload` (lines 185-194).  The result is `none` when
the function panics (`*resp.UploadId` with a nil `UploadId`, before anything is
printed or sent) and `some err` when it returns `err`. -/
def abortMultipartUpload {σ : Type} (svc : S3 σ) (resp : CreateMultipartUploadOutput)
    (s : σ) : Run σ (Option (Option GoError)) :=
  match resp.UploadId with
  | none => ⟨none, s, []⟩
  | some uploadId =>
    let abortInput : AbortMultipartUploadInput :=
      { Bucket := resp.Bucket, Key := resp.Key, UploadId := resp.UploadId }
    let r := svc.AbortMultipartUpload abortInput s
    ⟨some r.1, r.2,
      [Event.print (LogLine.aborting uploadId), Event.abortMultipartUpload abortInput r.1]⟩

/-- The Go slice expression `b[lo:hi]` on a slice whose capacity is its length
(`make([]byte, size)`): `none` is the run-time panic for indices out of range. -/
def slice (b : List Byte) (lo hi : Nat) : Option (List Byte) :=
  if lo ≤ hi ∧ hi ≤ b.length then some ((b.drop lo).take (hi - lo)) else none

/-- How the part loop of `main` is left. -/
inductive LoopExit where
  /-- The loop condition `remaining != 0` became false, with this `completedParts`. -/
  | completed (completedParts : List (Option CompletedPart))
  /-- `return` on line 117, after a failed `uploadPart`. -/
  | partFailed
  /-- A run-time panic. -/
  | panicked
  deriving DecidableEq, Repr

/-- The part loop of `main` (lines 104-122) for a maximum part size `M`, entered
with the given values of `curr`, `remaining`, `partNumber` and `completedParts`. -/
def uploadLoop {σ : Type} (svc : S3 σ) (resp : CreateMultipartUploadOutput)
    (buffer : List Byte) (M : Nat) (hM : 0 < M) (curr remaining : Nat) (partNumber : Int)
    (completedParts : List (Option CompletedPart)) (s : σ) : Run σ LoopExit :=
  if _h : remaining ≠ 0 then
    let partLength := if remaining < M then remaining else M
    match slice buffer curr (curr + partLength) with
    | none => ⟨LoopExit.panicked, s, []⟩
    | some fileBytes =>
      let u := uploadPart svc resp fileBytes partNumber s
      let here := Event.partRange curr partLength partNumber :: u.events
      match u.val.2 with
      | some err =>
        let a := abortMultipartUpload svc resp u.state
        match a.val with
        | none => ⟨LoopExit.panicked, a.state, here ++ [Event.print (LogLine.errorText err)]⟩
        | some (some err2) =>
          ⟨LoopExit.partFailed, a.state,
            here ++ [Event.print (LogLine.errorText err)] ++ a.events
              ++ [Event.print (LogLine.errorText err2)]⟩
        | some none =>
          ⟨LoopExit.partFailed, a.state,
            here ++ [Event.print (LogLine.errorText err)] ++ a.events⟩
      | none =>
        let r := uploadLoop svc resp buffer M hM (curr + partLength) (remaining - partLength)
          (partNumber + 1) (completedParts ++ [u.val.1]) u.state
        ⟨r.val, r.state, here ++ r.events⟩
  else
    ⟨LoopExit.completed completedParts, s, []⟩
termination_by remaining
decreasing_by
  split <;> omega

/-- How `main` is left. -/
inductive MainExit where
  /-- `return` on line 96: `CreateMultipartUpload` failed. -/
  | createFailed
  /-- `return` on line 117: a part could not be uploaded. -/
  | partFailed
  /-- `return` on line 127: `CompleteMultipartUpload` failed. -/
  | completeFailed
  /-- End of `main` after line 130: the file is uploaded. -/
  | uploaded
  /-- A run-time panic. -/
  | panicked
  deriving DecidableEq, Repr

/-- The orchestration part of `main` (lines 86-130) for a file called `fileName`
whose content was read into `buffer` (`size` is `len(buffer)`, line 82), with the
detected content type `fileType` and the bucket name of the command line. -/
def main {σ : Type} (svc : S3 σ) (awsBucketName fileName fileType : String)
    (buffer : List Byte) (s : σ) : Run σ MainExit :=
  let size := buffer.length
  let path := "/multipartupload/" ++ fileName
  let input : CreateMultipartUploadInput :=
    { Bucket := some awsBucketName, Key := some path, ContentType := some fileType }
  match svc.CreateMultipartUpload input s with
  | (Resp.failed err, s1) =>
    ⟨MainExit.createFailed, s1,
      [Event.createMultipartUpload input (Resp.failed err), Event.print (LogLine.errorText err)]⟩
  | (Resp.ok resp, s1) =>
    let start :=
      [Event.createMultipartUpload input (Resp.ok resp), Event.print LogLine.createdRequest]
    let l := uploadLoop svc resp buffer maxPartSize (by decide) 0 size 1 [] s1
    match l.val with
    | LoopExit.panicked => ⟨MainExit.panicked, l.state, start ++ l.events⟩
    | LoopExit.partFailed => ⟨MainExit.partFailed, l.state, start ++ l.events⟩
    | LoopExit.completed completedParts =>
      let c := completeMultipartUpload svc resp completedParts l.state
      match c.val with
      | Resp.failed err =>
        ⟨MainExit.completeFailed, c.state,
          start ++ l.events ++ c.events ++ [Event.print (LogLine.errorText err)]⟩
      | Resp.ok completeResponse =>
        ⟨MainExit.uploaded, c.state,
          start ++ l.events ++ c.events
            ++ [Event.print (LogLine.uploadedFile completeResponse.text)]⟩

/-! ## Reading a list of events -/

/-- The `UploadPart` calls among the events, with their responses. -/
def uploadPartCalls : List Event → List (UploadPartInput × Resp UploadPartOutput)
  | [] => []
  | Event.uploadPart input resp :: es => (input, resp) :: uploadPartCalls es
  | _ :: es => uploadPartCalls es

/-- The inputs of the `AbortMultipartUpload` calls among the events. -/
def abortCalls : List Event → List AbortMultipartUploadInput
  | [] => []
  | Event.abortMultipartUpload input _ :: es => input :: abortCalls es
  | _ :: es => abortCalls es

/-- The inputs of the `CompleteMultipartUpload` calls among the events. -/
def completeCalls : List Event → List CompleteMultipartUploadInput
  | [] => []
  | Event.completeMultipartUpload input _ :: es => input :: completeCalls es
  | _ :: es => completeCalls es

/-- The lines written to standard output among the events. -/
def logLines : List Event → List LogLine
  | [] => []
  | Event.print line :: es => line :: logLines es
  | _ :: es => logLines es

/-- The part ranges `(curr, partLength)` handed to `uploadPart`, in order. -/
def partRanges : List Event → List (Nat × Nat)
  | [] => []
  | Event.partRange curr partLength _ :: es => (curr, partLength) :: partRanges es
  | _ :: es => partRanges es

/-- Whether a response is a success (`err == nil`). -/
def Resp.isOk {α : Type} : Resp α → Bool
  | Resp.failed _ => false
  | Resp.ok _ => true

/-- The service state after `j` consecutive `UploadPart` calls with the same input. -/
def stateAfter {σ : Type} (svc : S3 σ) (input : UploadPartInput) : Nat → σ → σ
  | 0, s => s
  | j + 1, s => stateAfter svc input j (svc.UploadPart input s).2

/-- The response to the `(j+1)`-th of consecutive `UploadPart` calls with the same
input, the first of them issued in state `s`. -/
def attempt {σ : Type} (svc : S3 σ) (input : UploadPartInput) (j : Nat) (s : σ) :
    Resp UploadPartOutput :=
  (svc.UploadPart input (stateAfter svc input j s)).1

/-- The `partInput` that `uploadPart` builds (lines 154-161). -/
def partInputOf (resp : CreateMultipartUploadOutput) (fileBytes : List Byte)
    (partNumber : Int) : UploadPartInput :=
  { Body := fileBytes, Bucket := resp.Bucket, Key := resp.Key,
    PartNumber := some partNumber, UploadId := resp.UploadId,
    ContentLength := some (fileBytes.length : Int) }

/-- The events of `k` failed tries that are each followed by a retry: the failed
call and the retry notice, `k` times. -/
def failedTries {σ : Type} (svc : S3 σ) (input : UploadPartInput) (partNumber : Int) :
    Nat → σ → List Event
  | 0, _ => []
  | k + 1, s =>
    Event.uploadPart input (svc.UploadPart input s).1
      :: Event.print (LogLine.retrying partNumber)
      :: failedTries svc input partNumber k (svc.UploadPart input s).2

/-- The number of `UploadPart` calls among the events that failed. -/
def failedCalls (es : List Event) : Nat :=
  ((uploadPartCalls es).filter (fun c => !c.2.isOk)).length

/-- The number of failed `UploadPart` calls among the events that were made for
part number `n`. -/
def failedFor (n : Int) (es : List Event) : Nat :=
  ((uploadPartCalls es).filter
    (fun c => decide (c.1.PartNumber = some n) && !c.2.isOk)).length

/-- For every successful `UploadPart` call among the events, in order, the part
number of the request with the tag of the response. -/
def acknowledgedParts : List Event → List (Option CompletedPart)
  | [] => []
  | Event.uploadPart input (Resp.ok out) :: es =>
    some { ETag := out.ETag, PartNumber := input.PartNumber } :: acknowledgedParts es
  | _ :: es => acknowledgedParts es

/-- The ranges `(start, length)` are laid end to end beginning at offset `c`: the
first starts at `c` and each next one starts where the one before it ends. -/
def contiguousFrom : Nat → List (Nat × Nat) → Prop
  | _, [] => True
  | c, r :: rs => r.1 = c ∧ contiguousFrom (c + r.2) rs

/-- Every range but the last has length exactly `M`. -/
def onlyLastShorter (M : Nat) : List (Nat × Nat) → Prop
  | [] => True
  | [_] => True
  | r :: r2 :: rs => r.2 = M ∧ onlyLastShorter M (r2 :: rs)

/-- The sum of the lengths of the ranges. -/
def totalLength (rs : List (Nat × Nat)) : Nat := (rs.map Prod.snd).sum

/-- The number `ceil (S / M)` of parts of a file of `S` bytes. -/
def partCount (S M : Nat) : Nat := (S + M - 1) / M

/-- The entries are non-nil parts numbered `p`, `p + 1`, `p + 2`, ... in this order. -/
def numberedFrom : Int → List (Option CompletedPart) → Prop
  | _, [] => True
  | p, x :: xs => (∃ part, x = some part ∧ part.PartNumber = some p) ∧ numberedFrom (p + 1) xs

/-- The input of the `CreateMultipartUpload` call that `main` builds (lines 86-91). -/
def createInput (awsBucketName fileName fileType : String) : CreateMultipartUploadInput :=
  { Bucket := some awsBucketName, Key := some ("/multipartupload/" ++ fileName),
    ContentType := some fileType }

/-- The input of the `CompleteMultipartUpload` call for a session and a list of
parts (lines 134-141). -/
def completeInputOf (resp : CreateMultipartUploadOutput)
    (completedParts : List (Option CompletedPart)) : CompleteMultipartUploadInput :=
  { Bucket := resp.Bucket, Key := resp.Key, UploadId := resp.UploadId,
    Parts := completedParts }

/-- The length of the next part when `remaining` bytes are left (lines 105-109). -/
def nextLength (M remaining : Nat) : Nat := if remaining < M then remaining else M

/-- The bytes of the next part: `buffer[curr:curr+partLength]`. -/
def nextBytes (buffer : List Byte) (M curr remaining : Nat) : List Byte :=
  (buffer.drop curr).take (nextLength M remaining)

/-! ## Concrete services and inputs for the examples -/

/-- A service whose `UploadPart` fails on its first `n` calls, with an error
that names the call, and succeeds on all later ones with the tag `etag`; its
state counts the `UploadPart` calls. -/
def flakyS3 (n : Nat) (etag : Option String) : S3 Nat where
  CreateMultipartUpload := fun input s =>
    (Resp.ok { Bucket := input.Bucket, Key := input.Key, UploadId := some "upload-1" }, s)
  UploadPart := fun _ s =>
    (if s < n then Resp.failed ⟨true, "failure of call " ++ toString (s + 1)⟩
      else Resp.ok { ETag := etag }, s + 1)
  CompleteMultipartUpload := fun _ s => (Resp.ok ⟨"done"⟩, s)
  AbortMultipartUpload := fun _ s => (none, s)

/-- A service whose `UploadPart` fails, always with the same error, exactly for
the requests whose part number is `badPart`, and succeeds with the tag `"tag"` for
all others, and whose `CompleteMultipartUpload` fails when `completeFails` is set;
its state counts the `UploadPart` calls. -/
def partS3 (badPart : Option Int) (completeFails : Bool) : S3 Nat where
  CreateMultipartUpload := fun input s =>
    (Resp.ok { Bucket := input.Bucket, Key := input.Key, UploadId := some "upload-1" }, s)
  UploadPart := fun input s =>
    (if input.PartNumber = badPart then Resp.failed ⟨true, "no"⟩
      else Resp.ok { ETag := some "tag" }, s + 1)
  CompleteMultipartUpload := fun _ s =>
    (if completeFails then Resp.failed ⟨true, "cannot complete"⟩ else Resp.ok ⟨"done"⟩, s)
  AbortMultipartUpload := fun _ s => (none, s)

/-- The parts a run against `partS3` collects: `k` parts numbered from `p` on, all
with the tag `"tag"`. -/
def taggedParts : Int → Nat → List (Option CompletedPart)
  | _, 0 => []
  | p, k + 1 => some { ETag := some "tag", PartNumber := some p } :: taggedParts (p + 1) k

/-- The response of `flakyS3` to `CreateMultipartUpload` for bucket `b` and key `k`. -/
def sampleResp : CreateMultipartUploadOutput :=
  { Bucket := some "b", Key := some "k", UploadId := some "upload-1" }

/-- A buffer of `n` zero bytes. -/
def zeros (n : Nat) : List Byte := List.replicate n 0

/-! ## Lemmas on reading events -/

theorem uploadPartCalls_append (a b : List Event) :
    uploadPartCalls (a ++ b) = uploadPartCalls a ++ uploadPartCalls b := by
  induction a with
  | nil => rfl
  | cons e es ih => cases e <;> simp [uploadPartCalls, ih]

theorem abortCalls_append (a b : List Event) :
    abortCalls (a ++ b) = abortCalls a ++ abortCalls b := by
  induction a with
  | nil => rfl
  | cons e es ih => cases e <;> simp [abortCalls, ih]

theorem completeCalls_append (a b : List Event) :
    completeCalls (a ++ b) = completeCalls a ++ completeCalls b := by
  induction a with
  | nil => rfl
  | cons e es ih => cases e <;> simp [completeCalls, ih]

theorem logLines_append (a b : List Event) :
    logLines (a ++ b) = logLines a ++ logLines b := by
  induction a with
  | nil => rfl
  | cons e es ih => cases e <;> simp [logLines, ih]

theorem partRanges_cons_partRange (curr partLength : Nat) (partNumber : Int)
    (es : List Event) :
    partRanges (Event.partRange curr partLength partNumber :: es)
      = (curr, partLength) :: partRanges es := rfl

theorem partRanges_append (a b : List Event) :
    partRanges (a ++ b) = partRanges a ++ partRanges b := by
  induction a with
  | nil => rfl
  | cons e es ih => cases e <;> simp [partRanges, ih]

/-! ## The retry loop of `uploadPart` -/

theorem uploadPart_eq {σ : Type} (svc : S3 σ) (resp : CreateMultipartUploadOutput)
    (fileBytes : List Byte) (partNumber : Int) (s : σ) :
    uploadPart svc resp fileBytes partNumber s
      = uploadPartLoop svc (partInputOf resp fileBytes partNumber) partNumber 1 s := rfl

/-- The loop never issues more `UploadPart` calls than it has tries left. -/
theorem uploadPartLoop_calls_le {σ : Type} (svc : S3 σ) (partInput : UploadPartInput)
    (partNumber : Int) :
    ∀ (n tryNum : Nat) (s : σ), maxRetries + 1 - tryNum = n →
      (uploadPartCalls (uploadPartLoop svc partInput partNumber tryNum s).events).length ≤ n := by
  intro n
  induction n with
  | zero =>
    intro tryNum s h
    rw [uploadPartLoop]
    have : ¬ tryNum ≤ maxRetries := by omega
    simp [this, uploadPartCalls]
  | succ n ih =>
    intro tryNum s h
    rw [uploadPartLoop]
    have hle : tryNum ≤ maxRetries := by omega
    simp only [hle, dite_true]
    split
    · split
      · split <;> simp [uploadPartCalls]
      · have := ih (tryNum + 1) (by assumption) (by omega)
        simp only [uploadPartCalls, List.length_cons]
        omega
    · simp [uploadPartCalls]

theorem attempt_zero {σ : Type} (svc : S3 σ) (input : UploadPartInput) (s : σ) :
    attempt svc input 0 s = (svc.UploadPart input s).1 := rfl

theorem attempt_succ {σ : Type} (svc : S3 σ) (input : UploadPartInput) (j : Nat) (s : σ) :
    attempt svc input (j + 1) s = attempt svc input j (svc.UploadPart input s).2 := rfl

theorem stateAfter_succ {σ : Type} (svc : S3 σ) (input : UploadPartInput) (j : Nat) (s : σ) :
    stateAfter svc input (j + 1) s = stateAfter svc input j (svc.UploadPart input s).2 := rfl

/-- The loop when the next `k` tries fail and the one after them succeeds. -/
theorem uploadPartLoop_success {σ : Type} (svc : S3 σ) (partInput : UploadPartInput)
    (partNumber : Int) (out : UploadPartOutput) :
    ∀ (k tryNum : Nat) (s : σ), tryNum + k ≤ maxRetries →
      (∀ j, j < k → (attempt svc partInput j s).isOk = false) →
      attempt svc partInput k s = Resp.ok out →
      (uploadPartLoop svc partInput partNumber tryNum s).val
          = (some { ETag := out.ETag, PartNumber := some partNumber }, none)
        ∧ (uploadPartLoop svc partInput partNumber tryNum s).state
          = stateAfter svc partInput (k + 1) s
        ∧ (uploadPartLoop svc partInput partNumber tryNum s).events
          = failedTries svc partInput partNumber k s
              ++ [Event.uploadPart partInput (Resp.ok out),
                  Event.print (LogLine.uploaded partNumber (valueOr out.ETag "<nil>"))] := by
  intro k
  induction k with
  | zero =>
    intro tryNum s hle _ hok
    rw [attempt_zero] at hok
    rw [uploadPartLoop]
    have hle2 : tryNum ≤ maxRetries := by omega
    simp only [hle2, dite_true]
    split
    · rename_i err s1 heq
      rw [heq] at hok
      cases hok
    · rename_i res s1 heq
      rw [heq] at hok
      cases hok
      simp [failedTries, stateAfter, heq]
  | succ k ih =>
    intro tryNum s hle hfail hok
    have h0 := hfail 0 (by omega)
    rw [attempt_zero] at h0
    rw [attempt_succ] at hok
    have hrec := ih (tryNum + 1) (svc.UploadPart partInput s).2 (by omega)
      (fun j hj => by have := hfail (j + 1) (by omega); rwa [attempt_succ] at this) hok
    rw [uploadPartLoop]
    have hle2 : tryNum ≤ maxRetries := by omega
    have hne : tryNum ≠ maxRetries := by omega
    simp only [hle2, dite_true]
    split
    · rename_i err s1 heq
      rw [heq] at hrec h0
      simp only [hne, if_false]
      refine ⟨hrec.1, ?_, ?_⟩
      · rw [hrec.2.1, stateAfter_succ svc partInput (k + 1) s, heq]
      · rw [hrec.2.2]
        simp [failedTries, heq]
    · rename_i res s1 heq
      rw [heq] at h0
      simp [Resp.isOk] at h0

/-- The loop when every one of the `n + 1` tries it has left fails. -/
theorem uploadPartLoop_exhausted {σ : Type} (svc : S3 σ) (partInput : UploadPartInput)
    (partNumber : Int) :
    ∀ (n tryNum : Nat) (s : σ), tryNum + n = maxRetries →
      (∀ j, j ≤ n → (attempt svc partInput j s).isOk = false) →
      ∃ err, attempt svc partInput n s = Resp.failed err
        ∧ (uploadPartLoop svc partInput partNumber tryNum s).val = (none, some err)
        ∧ (uploadPartLoop svc partInput partNumber tryNum s).state
          = stateAfter svc partInput (n + 1) s
        ∧ (uploadPartLoop svc partInput partNumber tryNum s).events
          = failedTries svc partInput partNumber n s
              ++ [Event.uploadPart partInput (Resp.failed err)] := by
  intro n
  induction n with
  | zero =>
    intro tryNum s hle hfail
    have h0 := hfail 0 (by omega)
    rw [attempt_zero] at h0
    rw [uploadPartLoop]
    have hle2 : tryNum ≤ maxRetries := by omega
    have heq2 : tryNum = maxRetries := by omega
    simp only [hle2, dite_true]
    split
    · rename_i err s1 heq
      refine ⟨err, ?_, ?_⟩
      · rw [attempt_zero, heq]
      · simp only [heq2, if_true]
        split <;> simp [failedTries, stateAfter, heq]
    · rename_i res s1 heq
      rw [heq] at h0
      simp [Resp.isOk] at h0
  | succ n ih =>
    intro tryNum s hle hfail
    have h0 := hfail 0 (by omega)
    rw [attempt_zero] at h0
    obtain ⟨err, hatt, hval, hstate, hev⟩ := ih (tryNum + 1) (svc.UploadPart partInput s).2
      (by omega)
      (fun j hj => by have := hfail (j + 1) (by omega); rwa [attempt_succ] at this)
    refine ⟨err, by rw [attempt_succ]; exact hatt, ?_⟩
    rw [uploadPartLoop]
    have hle2 : tryNum ≤ maxRetries := by omega
    have hne : tryNum ≠ maxRetries := by omega
    simp only [hle2, dite_true]
    split
    · rename_i err1 s1 heq
      rw [heq] at hval hstate hev
      simp only [hne, if_false]
      refine ⟨hval, ?_, ?_⟩
      · rw [hstate, stateAfter_succ svc partInput (n + 1) s, heq]
      · rw [hev]
        simp [failedTries, heq]
    · rename_i res s1 heq
      rw [heq] at h0
      simp [Resp.isOk] at h0

/-- Among the first `n + 1` tries either all fail or there is a first success. -/
theorem attempt_cases {σ : Type} (svc : S3 σ) (input : UploadPartInput) (s : σ) (n : Nat) :
    (∀ j, j ≤ n → (attempt svc input j s).isOk = false)
      ∨ ∃ k out, k ≤ n ∧ (∀ j, j < k → (attempt svc input j s).isOk = false)
          ∧ attempt svc input k s = Resp.ok out := by
  induction n with
  | zero =>
    cases h : attempt svc input 0 s with
    | failed err =>
      left
      intro j hj
      have : j = 0 := by omega
      subst this
      simp [h, Resp.isOk]
    | ok out => exact Or.inr ⟨0, out, le_refl _, fun j hj => absurd hj (by omega), h⟩
  | succ n ih =>
    rcases ih with hall | ⟨k, out, hk, hfail, hok⟩
    · cases h : attempt svc input (n + 1) s with
      | failed err =>
        left
        intro j hj
        rcases Nat.lt_or_ge j (n + 1) with hlt | hge
        · exact hall j (by omega)
        · have : j = n + 1 := by omega
          subst this
          simp [h, Resp.isOk]
      | ok out => exact Or.inr ⟨n + 1, out, le_refl _, fun j hj => hall j (by omega), h⟩
    · exact Or.inr ⟨k, out, by omega, hfail, hok⟩

theorem uploadPartCalls_failedTries {σ : Type} (svc : S3 σ) (input : UploadPartInput)
    (partNumber : Int) :
    ∀ (k : Nat) (s : σ),
      (uploadPartCalls (failedTries svc input partNumber k s)).length = k := by
  intro k
  induction k with
  | zero => intro s; rfl
  | succ k ih => intro s; simp [failedTries, uploadPartCalls, ih]

theorem logLines_failedTries {σ : Type} (svc : S3 σ) (input : UploadPartInput)
    (partNumber : Int) :
    ∀ (k : Nat) (s : σ),
      logLines (failedTries svc input partNumber k s)
        = List.replicate k (LogLine.retrying partNumber) := by
  intro k
  induction k with
  | zero => intro s; rfl
  | succ k ih => intro s; simp [failedTries, logLines, ih, List.replicate_succ]

theorem maxRetries_pos : 1 ≤ maxRetries := by decide

/-- Every `uploadPart` call ends in one of two ways: after `k < maxRetries` failed
tries the next one succeeds, or all `maxRetries` tries fail. -/
theorem uploadPart_cases {σ : Type} (svc : S3 σ) (resp : CreateMultipartUploadOutput)
    (fileBytes : List Byte) (partNumber : Int) (s : σ) :
    (∃ k out, k < maxRetries
        ∧ (∀ j, j < k → (attempt svc (partInputOf resp fileBytes partNumber) j s).isOk = false)
        ∧ attempt svc (partInputOf resp fileBytes partNumber) k s = Resp.ok out
        ∧ (uploadPart svc resp fileBytes partNumber s).val
            = (some { ETag := out.ETag, PartNumber := some partNumber }, none)
        ∧ (uploadPart svc resp fileBytes partNumber s).state
            = stateAfter svc (partInputOf resp fileBytes partNumber) (k + 1) s
        ∧ (uploadPart svc resp fileBytes partNumber s).events
            = failedTries svc (partInputOf resp fileBytes partNumber) partNumber k s
                ++ [Event.uploadPart (partInputOf resp fileBytes partNumber) (Resp.ok out),
                    Event.print (LogLine.uploaded partNumber (valueOr out.ETag "<nil>"))])
    ∨ (∃ err, (∀ j, j < maxRetries →
            (attempt svc (partInputOf resp fileBytes partNumber) j s).isOk = false)
        ∧ attempt svc (partInputOf resp fileBytes partNumber) (maxRetries - 1) s
            = Resp.failed err
        ∧ (uploadPart svc resp fileBytes partNumber s).val = (none, some err)
        ∧ (uploadPart svc resp fileBytes partNumber s).state
            = stateAfter svc (partInputOf resp fileBytes partNumber) maxRetries s
        ∧ (uploadPart svc resp fileBytes partNumber s).events
            = failedTries svc (partInputOf resp fileBytes partNumber) partNumber
                (maxRetries - 1) s
                ++ [Event.uploadPart (partInputOf resp fileBytes partNumber)
                      (Resp.failed err)]) := by
  rw [uploadPart_eq]
  have hpos := maxRetries_pos
  rcases attempt_cases svc (partInputOf resp fileBytes partNumber) s (maxRetries - 1) with
    hall | ⟨k, out, hk, hfail, hok⟩
  · right
    obtain ⟨err, hatt, hval, hstate, hev⟩ :=
      uploadPartLoop_exhausted svc (partInputOf resp fileBytes partNumber) partNumber
        (maxRetries - 1) 1 s (by omega) hall
    refine ⟨err, fun j hj => hall j (by omega), hatt, hval, ?_, hev⟩
    rw [hstate]
    rfl
  · left
    obtain ⟨hval, hstate, hev⟩ :=
      uploadPartLoop_success svc (partInputOf resp fileBytes partNumber) partNumber out
        k 1 s (by omega) hfail hok
    exact ⟨k, out, by omega, hfail, hok, hval, hstate, hev⟩

theorem failedCalls_append (a b : List Event) :
    failedCalls (a ++ b) = failedCalls a + failedCalls b := by
  simp [failedCalls, uploadPartCalls_append]

theorem failedCalls_failedTries {σ : Type} (svc : S3 σ) (input : UploadPartInput)
    (partNumber : Int) :
    ∀ (k : Nat) (s : σ), (∀ j, j < k → (attempt svc input j s).isOk = false) →
      failedCalls (failedTries svc input partNumber k s) = k := by
  intro k
  induction k with
  | zero => intro s _; rfl
  | succ k ih =>
    intro s h
    have h0 := h 0 (by omega)
    rw [attempt_zero] at h0
    have hrec := ih (svc.UploadPart input s).2
      (fun j hj => by have := h (j + 1) (by omega); rwa [attempt_succ] at this)
    simp only [failedCalls] at hrec ⊢
    simp [failedTries, uploadPartCalls, h0, hrec]

theorem flakyS3_stateAfter (n : Nat) (etag : Option String) (input : UploadPartInput) :
    ∀ (j s : Nat), stateAfter (flakyS3 n etag) input j s = s + j := by
  intro j
  induction j with
  | zero => intro s; rfl
  | succ j ih =>
    intro s
    rw [stateAfter_succ, ih]
    simp only [flakyS3]
    omega

theorem flakyS3_attempt (n : Nat) (etag : Option String) (input : UploadPartInput)
    (j s : Nat) :
    attempt (flakyS3 n etag) input j s
      = if s + j < n then Resp.failed ⟨true, "failure of call " ++ toString (s + j + 1)⟩
        else Resp.ok { ETag := etag } := by
  simp only [attempt, flakyS3_stateAfter]
  rfl

/-- Every try against `flakyS3 n` fails when `n` is at least `maxRetries`. -/
theorem flakyS3_all_fail (n : Nat) (etag : Option String) (input : UploadPartInput)
    (hn : maxRetries ≤ n) :
    ∀ j, j < maxRetries → (attempt (flakyS3 n etag) input j 0).isOk = false := by
  intro j hj
  have hj2 : 0 + j < n := by omega
  rw [flakyS3_attempt, if_pos hj2]
  rfl

/-- What `uploadPart` returns against `flakyS3 10`, for any part. -/
theorem flakyS3_uploadPart_exhausted (resp : CreateMultipartUploadOutput)
    (fileBytes : List Byte) (partNumber : Int) :
    (uploadPart (flakyS3 10 none) resp fileBytes partNumber 0).val
      = (none, some ⟨true, "failure of call 10"⟩) := by
  have hfail := flakyS3_all_fail 10 none (partInputOf resp fileBytes partNumber) (by decide)
  obtain ⟨err, hatt, hval, _, _⟩ :=
    uploadPartLoop_exhausted (flakyS3 10 none) (partInputOf resp fileBytes partNumber)
      partNumber 9 1 0 (by decide) (fun j hj => hfail j (by simp only [maxRetries]; omega))
  have h2 : attempt (flakyS3 10 none) (partInputOf resp fileBytes partNumber) 9 0
      = Resp.failed ⟨true, "failure of call 10"⟩ := by
    rw [flakyS3_attempt]
    decide
  rw [h2] at hatt
  cases hatt
  rw [uploadPart_eq]
  exact hval

/-- What `uploadPart` does against `flakyS3 n` when `n < maxRetries` calls fail. -/
theorem flakyS3_uploadPart_ok (n : Nat) (etag : Option String)
    (resp : CreateMultipartUploadOutput) (fileBytes : List Byte) (partNumber : Int)
    (hn : n < maxRetries) :
    (uploadPart (flakyS3 n etag) resp fileBytes partNumber 0).val
        = (some { ETag := etag, PartNumber := some partNumber }, none)
      ∧ (uploadPart (flakyS3 n etag) resp fileBytes partNumber 0).events
        = failedTries (flakyS3 n etag) (partInputOf resp fileBytes partNumber) partNumber n 0
            ++ [Event.uploadPart (partInputOf resp fileBytes partNumber)
                  (Resp.ok { ETag := etag }),
                Event.print (LogLine.uploaded partNumber (valueOr etag "<nil>"))] := by
  obtain ⟨hval, _, hev⟩ :=
    uploadPartLoop_success (flakyS3 n etag) (partInputOf resp fileBytes partNumber) partNumber
      { ETag := etag } n 1 0 (by omega)
      (fun j hj => by
        have hj2 : 0 + j < n := by omega
        rw [flakyS3_attempt, if_pos hj2]
        rfl)
      (by
        have hj2 : ¬ 0 + n < n := by omega
        rw [flakyS3_attempt, if_neg hj2])
  exact ⟨hval, hev⟩

/-! ## One iteration of the part loop of `main` -/

theorem nextLength_pos {M remaining : Nat} (hM : 0 < M) (hrem : remaining ≠ 0) :
    0 < nextLength M remaining := by
  unfold nextLength
  split <;> omega

theorem nextLength_le_remaining (M remaining : Nat) : nextLength M remaining ≤ remaining := by
  unfold nextLength
  split <;> omega

theorem nextLength_le (M remaining : Nat) : nextLength M remaining ≤ M := by
  unfold nextLength
  split <;> omega

/-- The slice expression of line 110 does not panic while `curr + remaining` is
within the buffer. -/
theorem slice_next (buffer : List Byte) (M curr remaining : Nat)
    (hlen : curr + remaining ≤ buffer.length) :
    slice buffer curr (curr + nextLength M remaining)
      = some (nextBytes buffer M curr remaining) := by
  have := nextLength_le_remaining M remaining
  unfold slice nextBytes
  rw [if_pos ⟨by omega, by omega⟩]
  congr 3
  omega

theorem uploadLoop_zero {σ : Type} (svc : S3 σ) (resp : CreateMultipartUploadOutput)
    (buffer : List Byte) (M : Nat) (hM : 0 < M) (curr : Nat) (partNumber : Int)
    (completedParts : List (Option CompletedPart)) (s : σ) :
    uploadLoop svc resp buffer M hM curr 0 partNumber completedParts s
      = ⟨LoopExit.completed completedParts, s, []⟩ := by
  rw [uploadLoop]
  simp

/-- An iteration whose `uploadPart` call returns a nil error. -/
theorem uploadLoop_step_ok {σ : Type} (svc : S3 σ) (resp : CreateMultipartUploadOutput)
    (buffer : List Byte) (M : Nat) (hM : 0 < M) (curr remaining : Nat) (partNumber : Int)
    (completedParts : List (Option CompletedPart)) (s : σ)
    (hrem : remaining ≠ 0) (hlen : curr + remaining ≤ buffer.length)
    (hok : (uploadPart svc resp (nextBytes buffer M curr remaining) partNumber s).val.2 = none) :
    uploadLoop svc resp buffer M hM curr remaining partNumber completedParts s
      = ⟨(uploadLoop svc resp buffer M hM (curr + nextLength M remaining)
            (remaining - nextLength M remaining) (partNumber + 1)
            (completedParts
              ++ [(uploadPart svc resp (nextBytes buffer M curr remaining) partNumber s).val.1])
            (uploadPart svc resp (nextBytes buffer M curr remaining) partNumber s).state).val,
         (uploadLoop svc resp buffer M hM (curr + nextLength M remaining)
            (remaining - nextLength M remaining) (partNumber + 1)
            (completedParts
              ++ [(uploadPart svc resp (nextBytes buffer M curr remaining) partNumber s).val.1])
            (uploadPart svc resp (nextBytes buffer M curr remaining) partNumber s).state).state,
         (Event.partRange curr (nextLength M remaining) partNumber
            :: (uploadPart svc resp (nextBytes buffer M curr remaining) partNumber s).events)
          ++ (uploadLoop svc resp buffer M hM (curr + nextLength M remaining)
            (remaining - nextLength M remaining) (partNumber + 1)
            (completedParts
              ++ [(uploadPart svc resp (nextBytes buffer M curr remaining) partNumber s).val.1])
            (uploadPart svc resp (nextBytes buffer M curr remaining) partNumber s).state).events⟩ := by
  have hs := slice_next buffer M curr remaining hlen
  rw [uploadLoop]
  simp only [hrem, ne_eq, not_false_eq_true, dite_true]
  simp only [nextLength] at hs ⊢
  simp only [hs, hok]

/-- An iteration whose `uploadPart` call returns an error, with an upload id to
abort. -/
theorem uploadLoop_step_failed {σ : Type} (svc : S3 σ) (resp : CreateMultipartUploadOutput)
    (buffer : List Byte) (M : Nat) (hM : 0 < M) (curr remaining : Nat) (partNumber : Int)
    (completedParts : List (Option CompletedPart)) (s : σ) (err : GoError) (uploadId : String)
    (hrem : remaining ≠ 0) (hlen : curr + remaining ≤ buffer.length)
    (herr : (uploadPart svc resp (nextBytes buffer M curr remaining) partNumber s).val.2
      = some err)
    (hid : resp.UploadId = some uploadId) :
    (uploadLoop svc resp buffer M hM curr remaining partNumber completedParts s).val
        = LoopExit.partFailed
      ∧ (uploadLoop svc resp buffer M hM curr remaining partNumber completedParts s).events
        = (Event.partRange curr (nextLength M remaining) partNumber
            :: (uploadPart svc resp (nextBytes buffer M curr remaining) partNumber s).events)
          ++ [Event.print (LogLine.errorText err), Event.print (LogLine.aborting uploadId),
              Event.abortMultipartUpload
                { Bucket := resp.Bucket, Key := resp.Key, UploadId := resp.UploadId }
                (svc.AbortMultipartUpload
                  { Bucket := resp.Bucket, Key := resp.Key, UploadId := resp.UploadId }
                  (uploadPart svc resp (nextBytes buffer M curr remaining) partNumber s).state).1]
          ++ (match (svc.AbortMultipartUpload
                  { Bucket := resp.Bucket, Key := resp.Key, UploadId := resp.UploadId }
                  (uploadPart svc resp (nextBytes buffer M curr remaining) partNumber s).state).1
              with
              | some err2 => [Event.print (LogLine.errorText err2)]
              | none => []) := by
  have hs := slice_next buffer M curr remaining hlen
  rw [uploadLoop]
  simp only [hrem, ne_eq, not_false_eq_true, dite_true]
  simp only [nextLength] at hs ⊢
  simp only [hs, herr, abortMultipartUpload, hid]
  split <;> rename_i h <;> simp_all

/-- An iteration whose `uploadPart` call returns an error when the response to
`CreateMultipartUpload` has a nil `UploadId`: `abortMultipartUpload` panics. -/
theorem uploadLoop_step_panic {σ : Type} (svc : S3 σ) (resp : CreateMultipartUploadOutput)
    (buffer : List Byte) (M : Nat) (hM : 0 < M) (curr remaining : Nat) (partNumber : Int)
    (completedParts : List (Option CompletedPart)) (s : σ) (err : GoError)
    (hrem : remaining ≠ 0) (hlen : curr + remaining ≤ buffer.length)
    (herr : (uploadPart svc resp (nextBytes buffer M curr remaining) partNumber s).val.2
      = some err)
    (hid : resp.UploadId = none) :
    (uploadLoop svc resp buffer M hM curr remaining partNumber completedParts s).val
        = LoopExit.panicked
      ∧ (uploadLoop svc resp buffer M hM curr remaining partNumber completedParts s).events
        = (Event.partRange curr (nextLength M remaining) partNumber
            :: (uploadPart svc resp (nextBytes buffer M curr remaining) partNumber s).events)
          ++ [Event.print (LogLine.errorText err)] := by
  have hs := slice_next buffer M curr remaining hlen
  rw [uploadLoop]
  simp only [hrem, ne_eq, not_false_eq_true, dite_true]
  simp only [nextLength] at hs ⊢
  simp only [hs, herr, abortMultipartUpload, hid]
  simp

/-! ## The events of one `uploadPart` call -/

theorem failedFor_append (n : Int) (a b : List Event) :
    failedFor n (a ++ b) = failedFor n a + failedFor n b := by
  simp [failedFor, uploadPartCalls_append]

theorem acknowledgedParts_append (a b : List Event) :
    acknowledgedParts (a ++ b) = acknowledgedParts a ++ acknowledgedParts b := by
  induction a with
  | nil => rfl
  | cons e es ih =>
    cases e with
    | uploadPart input r => cases r <;> simp [acknowledgedParts, ih]
    | _ => simp [acknowledgedParts, ih]

theorem failedTries_summary {σ : Type} (svc : S3 σ) (input : UploadPartInput)
    (partNumber : Int) :
    ∀ (k : Nat) (s : σ), (∀ j, j < k → (attempt svc input j s).isOk = false) →
      partRanges (failedTries svc input partNumber k s) = []
      ∧ abortCalls (failedTries svc input partNumber k s) = []
      ∧ completeCalls (failedTries svc input partNumber k s) = []
      ∧ acknowledgedParts (failedTries svc input partNumber k s) = []
      ∧ (∀ c ∈ uploadPartCalls (failedTries svc input partNumber k s), c.1 = input)
      ∧ (∀ m : Int, failedFor m (failedTries svc input partNumber k s)
          = if input.PartNumber = some m then k else 0) := by
  intro k
  induction k with
  | zero =>
    intro s _
    simp [failedTries, partRanges, abortCalls, completeCalls, acknowledgedParts,
      uploadPartCalls, failedFor]
  | succ k ih =>
    intro s h
    have h0 := h 0 (by omega)
    rw [attempt_zero] at h0
    obtain ⟨h1, h2, h3, h4, h5, h6⟩ := ih (svc.UploadPart input s).2
      (fun j hj => by have := h (j + 1) (by omega); rwa [attempt_succ] at this)
    cases hr : (svc.UploadPart input s).1 with
    | ok out => rw [hr] at h0; simp [Resp.isOk] at h0
    | failed err =>
      refine ⟨?_, ?_, ?_, ?_, ?_, ?_⟩
      · simp [failedTries, partRanges, h1]
      · simp [failedTries, abortCalls, h2]
      · simp [failedTries, completeCalls, h3]
      · simp [failedTries, acknowledgedParts, hr, h4]
      · intro c hc
        simp only [failedTries, uploadPartCalls, List.mem_cons] at hc
        rcases hc with hc | hc
        · rw [hc]
        · exact h5 c hc
      · intro m
        have h6m := h6 m
        simp only [failedFor] at h6m ⊢
        by_cases hm : input.PartNumber = some m
        · simp [failedTries, uploadPartCalls, hr, Resp.isOk, hm] at h6m ⊢
          omega
        · simp [failedTries, uploadPartCalls, hr, Resp.isOk, hm] at h6m ⊢
          exact h6m

/-- What one `uploadPart` call leaves among the events: only `UploadPart` calls
for its own part number and lines of output; and either it returns a part, which
is the acknowledged one, after fewer than `maxRetries` failures, or it returns an
error after `maxRetries` failures. -/
theorem uploadPart_summary {σ : Type} (svc : S3 σ) (resp : CreateMultipartUploadOutput)
    (fileBytes : List Byte) (partNumber : Int) (s : σ) :
    partRanges (uploadPart svc resp fileBytes partNumber s).events = []
    ∧ abortCalls (uploadPart svc resp fileBytes partNumber s).events = []
    ∧ completeCalls (uploadPart svc resp fileBytes partNumber s).events = []
    ∧ (∀ c ∈ uploadPartCalls (uploadPart svc resp fileBytes partNumber s).events,
        c.1 = partInputOf resp fileBytes partNumber)
    ∧ (∀ m : Int, m ≠ partNumber →
        failedFor m (uploadPart svc resp fileBytes partNumber s).events = 0)
    ∧ ((∃ part : CompletedPart,
          (uploadPart svc resp fileBytes partNumber s).val = (some part, none)
          ∧ part.PartNumber = some partNumber
          ∧ acknowledgedParts (uploadPart svc resp fileBytes partNumber s).events = [some part]
          ∧ failedFor partNumber (uploadPart svc resp fileBytes partNumber s).events
              < maxRetries)
      ∨ (∃ err : GoError,
          (uploadPart svc resp fileBytes partNumber s).val = (none, some err)
          ∧ acknowledgedParts (uploadPart svc resp fileBytes partNumber s).events = []
          ∧ failedFor partNumber (uploadPart svc resp fileBytes partNumber s).events
              = maxRetries)) := by
  have hpos := maxRetries_pos
  have hpn : (partInputOf resp fileBytes partNumber).PartNumber = some partNumber := rfl
  rcases uploadPart_cases svc resp fileBytes partNumber s with
    ⟨k, out, hk, hfail, _, hval, _, hev⟩ | ⟨err, hfail, _, hval, _, hev⟩
  · obtain ⟨h1, h2, h3, h4, h5, h6⟩ :=
      failedTries_summary svc (partInputOf resp fileBytes partNumber) partNumber k s hfail
    refine ⟨?_, ?_, ?_, ?_, ?_, Or.inl ⟨_, hval, rfl, ?_, ?_⟩⟩
    · rw [hev, partRanges_append, h1]; rfl
    · rw [hev, abortCalls_append, h2]; rfl
    · rw [hev, completeCalls_append, h3]; rfl
    · intro c hc
      rw [hev, uploadPartCalls_append, List.mem_append] at hc
      rcases hc with hc | hc
      · exact h5 c hc
      · simp only [uploadPartCalls, List.mem_singleton] at hc
        rw [hc]
    · intro m hm
      have hne : ¬ (partInputOf resp fileBytes partNumber).PartNumber = some m := by
        rw [hpn]
        intro h
        exact hm (Option.some.inj h).symm
      rw [hev, failedFor_append, h6 m, if_neg hne]
      simp [failedFor, uploadPartCalls, Resp.isOk, hne]
    · rw [hev, acknowledgedParts_append, h4]
      rfl
    · rw [hev, failedFor_append, h6 partNumber, hpn]
      simp [failedFor, uploadPartCalls, Resp.isOk]
      exact hk
  · obtain ⟨h1, h2, h3, h4, h5, h6⟩ :=
      failedTries_summary svc (partInputOf resp fileBytes partNumber) partNumber
        (maxRetries - 1) s (fun j hj => hfail j (by omega))
    refine ⟨?_, ?_, ?_, ?_, ?_, Or.inr ⟨err, hval, ?_, ?_⟩⟩
    · rw [hev, partRanges_append, h1]; rfl
    · rw [hev, abortCalls_append, h2]; rfl
    · rw [hev, completeCalls_append, h3]; rfl
    · intro c hc
      rw [hev, uploadPartCalls_append, List.mem_append] at hc
      rcases hc with hc | hc
      · exact h5 c hc
      · simp only [uploadPartCalls, List.mem_singleton] at hc
        rw [hc]
    · intro m hm
      have hne : ¬ (partInputOf resp fileBytes partNumber).PartNumber = some m := by
        rw [hpn]
        intro h
        exact hm (Option.some.inj h).symm
      rw [hev, failedFor_append, h6 m, if_neg hne]
      simp [failedFor, uploadPartCalls, Resp.isOk, hne]
    · rw [hev, acknowledgedParts_append, h4]
      rfl
    · rw [hev, failedFor_append, h6 partNumber, hpn]
      simp [failedFor, uploadPartCalls, Resp.isOk, hpn]
      omega

/-- An iteration whose `uploadPart` call returns an error: the loop ends there,
after one abort call when there is an upload id, in a panic when there is none. -/
theorem uploadLoop_step_err {σ : Type} (svc : S3 σ) (resp : CreateMultipartUploadOutput)
    (buffer : List Byte) (M : Nat) (hM : 0 < M) (curr remaining : Nat) (partNumber : Int)
    (completedParts : List (Option CompletedPart)) (s : σ) (err : GoError)
    (hrem : remaining ≠ 0) (hlen : curr + remaining ≤ buffer.length)
    (herr : (uploadPart svc resp (nextBytes buffer M curr remaining) partNumber s).val.2
      = some err) :
    partRanges (uploadLoop svc resp buffer M hM curr remaining partNumber completedParts s).events
        = [(curr, nextLength M remaining)]
    ∧ uploadPartCalls
          (uploadLoop svc resp buffer M hM curr remaining partNumber completedParts s).events
        = uploadPartCalls
            (uploadPart svc resp (nextBytes buffer M curr remaining) partNumber s).events
    ∧ completeCalls
          (uploadLoop svc resp buffer M hM curr remaining partNumber completedParts s).events = []
    ∧ ((∃ uploadId, resp.UploadId = some uploadId
          ∧ (uploadLoop svc resp buffer M hM curr remaining partNumber completedParts s).val
              = LoopExit.partFailed
          ∧ abortCalls
                (uploadLoop svc resp buffer M hM curr remaining partNumber completedParts s).events
              = [{ Bucket := resp.Bucket, Key := resp.Key, UploadId := some uploadId }])
      ∨ (resp.UploadId = none
          ∧ (uploadLoop svc resp buffer M hM curr remaining partNumber completedParts s).val
              = LoopExit.panicked
          ∧ abortCalls
                (uploadLoop svc resp buffer M hM curr remaining partNumber completedParts s).events
              = [])) := by
  obtain ⟨h1, h2, h3, _, _, _⟩ :=
    uploadPart_summary svc resp (nextBytes buffer M curr remaining) partNumber s
  cases hid : resp.UploadId with
  | none =>
    obtain ⟨hval, hev⟩ := uploadLoop_step_panic svc resp buffer M hM curr remaining partNumber
      completedParts s err hrem hlen herr hid
    refine ⟨?_, ?_, ?_, Or.inr ⟨rfl, hval, ?_⟩⟩
    · rw [hev]; simp [partRanges_append, partRanges, h1]
    · rw [hev]; simp [uploadPartCalls_append, uploadPartCalls]
    · rw [hev]; simp [completeCalls_append, completeCalls, h3]
    · rw [hev]; simp [abortCalls_append, abortCalls, h2]
  | some uploadId =>
    obtain ⟨hval, hev⟩ := uploadLoop_step_failed svc resp buffer M hM curr remaining partNumber
      completedParts s err uploadId hrem hlen herr hid
    refine ⟨?_, ?_, ?_, Or.inl ⟨uploadId, rfl, hval, ?_⟩⟩
    · rw [hev]
      split <;> simp [partRanges_append, partRanges, h1]
    · rw [hev]
      split <;> simp [uploadPartCalls_append, uploadPartCalls]
    · rw [hev]
      split <;> simp [completeCalls_append, completeCalls, h3]
    · rw [hev]
      split <;> simp [abortCalls_append, abortCalls, h2, hid]

/-! ## The part ranges of the loop -/

theorem onlyLastShorter_cons (M : Nat) (r : Nat × Nat) (rs : List (Nat × Nat))
    (hr : rs ≠ [] → r.2 = M) (hrs : onlyLastShorter M rs) : onlyLastShorter M (r :: rs) := by
  cases rs with
  | nil => trivial
  | cons r2 rs => exact ⟨hr (by simp), hrs⟩

theorem partCount_zero (M : Nat) (hM : 0 < M) : partCount 0 M = 0 := by
  unfold partCount
  exact Nat.div_eq_of_lt (by omega)

theorem partCount_step (M remaining : Nat) (hM : 0 < M) (hrem : remaining ≠ 0) :
    partCount remaining M = partCount (remaining - nextLength M remaining) M + 1 := by
  unfold partCount nextLength
  split
  · rename_i hlt
    have h1 : remaining + M - 1 = (remaining - 1) + M := by omega
    have h2 : remaining - remaining + M - 1 = M - 1 := by omega
    rw [h1, h2, Nat.add_div_right _ hM, Nat.div_eq_of_lt (by omega : remaining - 1 < M),
      Nat.div_eq_of_lt (by omega : M - 1 < M)]
  · rename_i hge
    have h1 : remaining + M - 1 = (remaining - M + M - 1) + M := by omega
    rw [h1, Nat.add_div_right _ hM]

/-- The ranges of the part loop entered with `curr` and `remaining`, whatever the
service answers and however the loop is left. -/
theorem uploadLoop_ranges {σ : Type} (svc : S3 σ) (resp : CreateMultipartUploadOutput)
    (buffer : List Byte) (M : Nat) (hM : 0 < M) :
    ∀ (remaining curr : Nat) (partNumber : Int) (completedParts : List (Option CompletedPart))
      (s : σ), curr + remaining ≤ buffer.length →
      contiguousFrom curr (partRanges
          (uploadLoop svc resp buffer M hM curr remaining partNumber completedParts s).events)
      ∧ (∀ r ∈ partRanges
          (uploadLoop svc resp buffer M hM curr remaining partNumber completedParts s).events,
          0 < r.2 ∧ r.2 ≤ M)
      ∧ onlyLastShorter M (partRanges
          (uploadLoop svc resp buffer M hM curr remaining partNumber completedParts s).events)
      ∧ totalLength (partRanges
          (uploadLoop svc resp buffer M hM curr remaining partNumber completedParts s).events)
          ≤ remaining
      ∧ (partRanges
          (uploadLoop svc resp buffer M hM curr remaining partNumber completedParts s).events).length
          ≤ partCount remaining M
      ∧ (∀ parts,
          (uploadLoop svc resp buffer M hM curr remaining partNumber completedParts s).val
            = LoopExit.completed parts →
          totalLength (partRanges
            (uploadLoop svc resp buffer M hM curr remaining partNumber completedParts s).events)
            = remaining
          ∧ (partRanges
            (uploadLoop svc resp buffer M hM curr remaining partNumber completedParts s).events).length
            = partCount remaining M) := by
  intro remaining
  induction remaining using Nat.strong_induction_on with
  | _ remaining ih =>
    intro curr partNumber completedParts s hlen
    by_cases hrem : remaining = 0
    · subst hrem
      rw [uploadLoop_zero]
      simp [partRanges, contiguousFrom, onlyLastShorter, totalLength, partCount_zero M hM]
    · have hpos := nextLength_pos hM hrem
      have hle := nextLength_le_remaining M remaining
      have hleM := nextLength_le M remaining
      have hcount := partCount_step M remaining hM hrem
      obtain ⟨h1, _, _, _, _, hcase⟩ :=
        uploadPart_summary svc resp (nextBytes buffer M curr remaining) partNumber s
      rcases hcase with ⟨part, hval, _, _, _⟩ | ⟨err, hval, _, _⟩
      · have hok : (uploadPart svc resp (nextBytes buffer M curr remaining) partNumber s).val.2
            = none := by rw [hval]
        have hstep := uploadLoop_step_ok svc resp buffer M hM curr remaining partNumber
          completedParts s hrem hlen hok
        have hpr := congrArg (fun r => partRanges r.events) hstep
        have hv := congrArg (fun r => r.val) hstep
        simp only [partRanges_append, partRanges_cons_partRange, h1, List.cons_append,
          List.nil_append] at hpr
        simp only at hv
        rw [hpr, hv]
        obtain ⟨i1, i2, i3, i4, i5, i6⟩ :=
          ih (remaining - nextLength M remaining) (by omega) (curr + nextLength M remaining)
            (partNumber + 1)
            (completedParts
              ++ [(uploadPart svc resp (nextBytes buffer M curr remaining) partNumber s).val.1])
            (uploadPart svc resp (nextBytes buffer M curr remaining) partNumber s).state
            (by omega)
        refine ⟨⟨rfl, i1⟩, ?_, ?_, ?_, ?_, ?_⟩
        · intro r hr
          rcases List.mem_cons.1 hr with hr | hr
          · subst hr
            exact ⟨hpos, hleM⟩
          · exact i2 r hr
        · apply onlyLastShorter_cons _ _ _ _ i3
          intro hne
          by_cases hz : remaining - nextLength M remaining = 0
          · exfalso
            apply hne
            rw [hz, uploadLoop_zero]
            rfl
          · show nextLength M remaining = M
            unfold nextLength at hz ⊢
            split
            · rename_i hlt
              rw [if_pos hlt] at hz
              omega
            · rfl
        · simp only [totalLength, List.map_cons, List.sum_cons] at i4 ⊢
          omega
        · simp only [List.length_cons]
          omega
        · intro parts hparts
          obtain ⟨j1, j2⟩ := i6 parts hparts
          simp only [totalLength, List.map_cons, List.sum_cons, List.length_cons] at j1 ⊢
          omega
      · have herr : (uploadPart svc resp (nextBytes buffer M curr remaining) partNumber s).val.2
            = some err := by rw [hval]
        obtain ⟨e1, _, _, e4⟩ := uploadLoop_step_err svc resp buffer M hM curr remaining
          partNumber completedParts s err hrem hlen herr
        rw [e1]
        refine ⟨⟨rfl, trivial⟩, ?_, trivial, ?_, ?_, ?_⟩
        · intro r hr
          rw [List.mem_singleton] at hr
          subst hr
          exact ⟨hpos, hleM⟩
        · simp only [totalLength, List.map_cons, List.map_nil, List.sum_cons, List.sum_nil]
          omega
        · simp only [List.length_singleton]
          omega
        · intro parts hparts
          rcases e4 with ⟨_, _, hv, _⟩ | ⟨_, hv, _⟩ <;> rw [hv] at hparts <;> cases hparts

/-! ## The calls of the loop -/

theorem acknowledgedParts_eq_of_calls (a b : List Event)
    (h : uploadPartCalls a = uploadPartCalls b) : acknowledgedParts a = acknowledgedParts b := by
  induction a generalizing b with
  | nil =>
    induction b with
    | nil => rfl
    | cons e es ih =>
      cases e with
      | uploadPart input r => simp [uploadPartCalls] at h
      | _ => simpa [acknowledgedParts] using ih (by simpa [uploadPartCalls] using h)
  | cons e es ih =>
    cases e with
    | uploadPart input r =>
      induction b with
      | nil => simp [uploadPartCalls] at h
      | cons e2 es2 ih2 =>
        cases e2 with
        | uploadPart input2 r2 =>
          simp only [uploadPartCalls, List.cons.injEq, Prod.mk.injEq] at h
          obtain ⟨⟨h1, h2⟩, h3⟩ := h
          subst h1 h2
          cases r <;> simp [acknowledgedParts, ih es2 h3]
        | _ =>
          simpa [acknowledgedParts] using ih2 (by simpa [uploadPartCalls] using h)
    | _ => simpa [acknowledgedParts] using ih b (by simpa [uploadPartCalls] using h)

/-- No failed call is counted for a part number below those of all the calls. -/
theorem failedFor_eq_zero_of_lt (p m : Int) (es : List Event) (hm : m < p)
    (h : ∀ c ∈ uploadPartCalls es, ∃ n : Int, c.1.PartNumber = some n ∧ p ≤ n) :
    failedFor m es = 0 := by
  unfold failedFor
  rw [List.length_eq_zero, List.filter_eq_nil_iff]
  intro c hc
  obtain ⟨n, hn, hpn⟩ := h c hc
  have : ¬ c.1.PartNumber = some m := by
    rw [hn]
    intro h2
    have := Option.some.inj h2
    omega
  simp [this]

/-- What an iteration whose `uploadPart` call succeeds adds to the events of the
rest of the loop. -/
theorem uploadLoop_step_ok_reads {σ : Type} (svc : S3 σ) (resp : CreateMultipartUploadOutput)
    (buffer : List Byte) (M : Nat) (hM : 0 < M) (curr remaining : Nat) (partNumber : Int)
    (completedParts : List (Option CompletedPart)) (s : σ) (part : CompletedPart)
    (hrem : remaining ≠ 0) (hlen : curr + remaining ≤ buffer.length)
    (hval : (uploadPart svc resp (nextBytes buffer M curr remaining) partNumber s).val
      = (some part, none)) :
    (uploadLoop svc resp buffer M hM curr remaining partNumber completedParts s).val
        = (uploadLoop svc resp buffer M hM (curr + nextLength M remaining)
            (remaining - nextLength M remaining) (partNumber + 1)
            (completedParts ++ [some part])
            (uploadPart svc resp (nextBytes buffer M curr remaining) partNumber s).state).val
    ∧ (uploadLoop svc resp buffer M hM curr remaining partNumber completedParts s).events
        = (Event.partRange curr (nextLength M remaining) partNumber
            :: (uploadPart svc resp (nextBytes buffer M curr remaining) partNumber s).events)
          ++ (uploadLoop svc resp buffer M hM (curr + nextLength M remaining)
            (remaining - nextLength M remaining) (partNumber + 1)
            (completedParts ++ [some part])
            (uploadPart svc resp (nextBytes buffer M curr remaining) partNumber s).state).events := by
  have hok : (uploadPart svc resp (nextBytes buffer M curr remaining) partNumber s).val.2
      = none := by rw [hval]
  have h1 : (uploadPart svc resp (nextBytes buffer M curr remaining) partNumber s).val.1
      = some part := by rw [hval]
  have hstep := uploadLoop_step_ok svc resp buffer M hM curr remaining partNumber
    completedParts s hrem hlen hok
  rw [h1] at hstep
  rw [hstep]
  exact ⟨rfl, rfl⟩

theorem failedFor_eq_of_calls (m : Int) (a b : List Event)
    (h : uploadPartCalls a = uploadPartCalls b) : failedFor m a = failedFor m b := by
  unfold failedFor
  rw [h]

/-- The calls of the part loop entered with part number `partNumber`: it never
calls `CompleteMultipartUpload`; when it is left through its condition, no abort
was called, no part had `maxRetries` failed calls, and `completedParts` has grown by
the acknowledged parts, numbered from `partNumber` on; otherwise one part `q` had
`maxRetries` failed calls, it is the last part for which `UploadPart` was called, and
the loop ended with one abort call or, without an upload id, in a panic. -/
theorem uploadLoop_calls {σ : Type} (svc : S3 σ) (resp : CreateMultipartUploadOutput)
    (buffer : List Byte) (M : Nat) (hM : 0 < M) :
    ∀ (remaining curr : Nat) (partNumber : Int) (completedParts : List (Option CompletedPart))
      (s : σ), curr + remaining ≤ buffer.length →
      completeCalls
          (uploadLoop svc resp buffer M hM curr remaining partNumber completedParts s).events = []
      ∧ (∀ c ∈ uploadPartCalls
            (uploadLoop svc resp buffer M hM curr remaining partNumber completedParts s).events,
          ∃ n : Int, c.1.PartNumber = some n ∧ partNumber ≤ n)
      ∧ ((∃ parts,
            (uploadLoop svc resp buffer M hM curr remaining partNumber completedParts s).val
              = LoopExit.completed parts
            ∧ parts = completedParts ++ acknowledgedParts
                (uploadLoop svc resp buffer M hM curr remaining partNumber completedParts s).events
            ∧ numberedFrom partNumber (acknowledgedParts
                (uploadLoop svc resp buffer M hM curr remaining partNumber completedParts s).events)
            ∧ (acknowledgedParts
                (uploadLoop svc resp buffer M hM curr remaining partNumber completedParts s).events).length
                = partCount remaining M
            ∧ abortCalls
                (uploadLoop svc resp buffer M hM curr remaining partNumber completedParts s).events
                = []
            ∧ (∀ m : Int, failedFor m
                (uploadLoop svc resp buffer M hM curr remaining partNumber completedParts s).events
                < maxRetries)
            ∧ (remaining = 0 → uploadPartCalls
                (uploadLoop svc resp buffer M hM curr remaining partNumber completedParts s).events
                = []))
        ∨ (∃ q : Int, partNumber ≤ q
            ∧ failedFor q
                (uploadLoop svc resp buffer M hM curr remaining partNumber completedParts s).events
                = maxRetries
            ∧ (∀ m : Int, m ≠ q → failedFor m
                (uploadLoop svc resp buffer M hM curr remaining partNumber completedParts s).events
                < maxRetries)
            ∧ (∀ c ∈ uploadPartCalls
                (uploadLoop svc resp buffer M hM curr remaining partNumber completedParts s).events,
                ∃ n : Int, c.1.PartNumber = some n ∧ n ≤ q)
            ∧ ((∃ uploadId, resp.UploadId = some uploadId
                ∧ (uploadLoop svc resp buffer M hM curr remaining partNumber completedParts s).val
                    = LoopExit.partFailed
                ∧ abortCalls
                    (uploadLoop svc resp buffer M hM curr remaining partNumber completedParts
                      s).events
                    = [{ Bucket := resp.Bucket, Key := resp.Key, UploadId := some uploadId }])
              ∨ (resp.UploadId = none
                ∧ (uploadLoop svc resp buffer M hM curr remaining partNumber completedParts s).val
                    = LoopExit.panicked
                ∧ abortCalls
                    (uploadLoop svc resp buffer M hM curr remaining partNumber completedParts
                      s).events
                    = [])))) := by
  intro remaining
  induction remaining using Nat.strong_induction_on with
  | _ remaining ih =>
    intro curr partNumber completedParts s hlen
    have hpos := maxRetries_pos
    by_cases hrem : remaining = 0
    · subst hrem
      rw [uploadLoop_zero]
      refine ⟨rfl, ?_, Or.inl ⟨completedParts, rfl, ?_, trivial, ?_, rfl, ?_, fun _ => rfl⟩⟩
      · intro c hc
        simp [uploadPartCalls] at hc
      · simp [acknowledgedParts]
      · simp [acknowledgedParts, partCount_zero M hM]
      · intro m
        simp only [failedFor, uploadPartCalls, List.filter_nil, List.length_nil]
        omega
    · have hle := nextLength_le_remaining M remaining
      have hnl := nextLength_pos hM hrem
      have hcount := partCount_step M remaining hM hrem
      obtain ⟨_, u2, u3, u4, u5, hcase⟩ :=
        uploadPart_summary svc resp (nextBytes buffer M curr remaining) partNumber s
      have ucalls : ∀ c ∈ uploadPartCalls
          (uploadPart svc resp (nextBytes buffer M curr remaining) partNumber s).events,
          c.1.PartNumber = some partNumber := by
        intro c hc
        rw [u4 c hc]
        rfl
      rcases hcase with ⟨part, hval, hnum, hack, hfew⟩ | ⟨err, hval, _, hmany⟩
      · obtain ⟨hv, hev⟩ := uploadLoop_step_ok_reads svc resp buffer M hM curr remaining
          partNumber completedParts s part hrem hlen hval
        obtain ⟨i1, i2, i3⟩ :=
          ih (remaining - nextLength M remaining) (by omega) (curr + nextLength M remaining)
            (partNumber + 1) (completedParts ++ [some part])
            (uploadPart svc resp (nextBytes buffer M curr remaining) partNumber s).state
            (by omega)
        rw [List.cons_append] at hev
        have hcc := congrArg completeCalls hev
        have hup := congrArg uploadPartCalls hev
        have hab := congrArg abortCalls hev
        have hak := congrArg acknowledgedParts hev
        simp only [completeCalls_append, completeCalls, u3, i1, List.append_nil] at hcc
        simp only [uploadPartCalls_append, uploadPartCalls] at hup
        simp only [abortCalls_append, abortCalls, u2, List.nil_append] at hab
        simp only [acknowledgedParts_append, acknowledgedParts, hack] at hak
        have hff : ∀ m : Int, failedFor m
            (uploadLoop svc resp buffer M hM curr remaining partNumber completedParts s).events
            = failedFor m
                (uploadPart svc resp (nextBytes buffer M curr remaining) partNumber s).events
              + failedFor m
                (uploadLoop svc resp buffer M hM (curr + nextLength M remaining)
                  (remaining - nextLength M remaining) (partNumber + 1)
                  (completedParts ++ [some part])
                  (uploadPart svc resp (nextBytes buffer M curr remaining) partNumber
                    s).state).events := by
          intro m
          rw [← failedFor_append]
          exact failedFor_eq_of_calls m _ _ (by rw [hup, uploadPartCalls_append])
        have hzero := failedFor_eq_zero_of_lt (partNumber + 1) partNumber _ (by omega) i2
        refine ⟨hcc, ?_, ?_⟩
        · intro c hc
          rw [hup, List.mem_append] at hc
          rcases hc with hc | hc
          · exact ⟨partNumber, ucalls c hc, le_refl _⟩
          · obtain ⟨n, hn, hpn⟩ := i2 c hc
            exact ⟨n, hn, by omega⟩
        · rcases i3 with ⟨parts, j1, j2, j3, j4, j5, j6, _⟩ | ⟨q, k1, k2, k3, k4, k5⟩
          · left
            refine ⟨parts, by rw [hv, j1], ?_, ?_, ?_, by rw [hab, j5], ?_, ?_⟩
            · rw [j2, hak]
              simp
            · rw [hak]
              exact ⟨⟨part, rfl, hnum⟩, j3⟩
            · rw [hak]
              simp only [List.singleton_append, List.length_cons, j4]
              omega
            · intro m
              rw [hff m]
              by_cases hm : m = partNumber
              · subst hm
                rw [hzero]
                omega
              · rw [u5 m hm]
                have := j6 m
                omega
            · intro h0
              exact absurd h0 hrem
          · right
            refine ⟨q, by omega, ?_, ?_, ?_, ?_⟩
            · rw [hff q, u5 q (by omega), k2]
              omega
            · intro m hm
              rw [hff m]
              by_cases hm2 : m = partNumber
              · subst hm2
                rw [hzero]
                omega
              · rw [u5 m hm2]
                have := k3 m hm
                omega
            · intro c hc
              rw [hup, List.mem_append] at hc
              rcases hc with hc | hc
              · exact ⟨partNumber, ucalls c hc, by omega⟩
              · exact k4 c hc
            · rw [hv, hab]
              exact k5
      · have herr : (uploadPart svc resp (nextBytes buffer M curr remaining) partNumber s).val.2
            = some err := by rw [hval]
        obtain ⟨_, e2, e3, e4⟩ := uploadLoop_step_err svc resp buffer M hM curr remaining
          partNumber completedParts s err hrem hlen herr
        refine ⟨e3, ?_, Or.inr ⟨partNumber, le_refl _, ?_, ?_, ?_, e4⟩⟩
        · intro c hc
          rw [e2] at hc
          exact ⟨partNumber, ucalls c hc, le_refl _⟩
        · rw [failedFor_eq_of_calls _ _ _ e2, hmany]
        · intro m hm
          rw [failedFor_eq_of_calls _ _ _ e2, u5 m hm]
          omega
        · intro c hc
          rw [e2] at hc
          exact ⟨partNumber, ucalls c hc, le_refl _⟩

/-- The part loop is left through its condition exactly when no part had
`maxRetries` failed `UploadPart` calls. -/
theorem uploadLoop_completed_iff {σ : Type} (svc : S3 σ) (resp : CreateMultipartUploadOutput)
    (buffer : List Byte) (M : Nat) (hM : 0 < M) (remaining curr : Nat) (partNumber : Int)
    (completedParts : List (Option CompletedPart)) (s : σ)
    (hlen : curr + remaining ≤ buffer.length) :
    (∃ parts, (uploadLoop svc resp buffer M hM curr remaining partNumber completedParts s).val
        = LoopExit.completed parts)
      ↔ ∀ m : Int, failedFor m
          (uploadLoop svc resp buffer M hM curr remaining partNumber completedParts s).events
          < maxRetries := by
  obtain ⟨_, _, hcase⟩ := uploadLoop_calls svc resp buffer M hM remaining curr partNumber
    completedParts s hlen
  constructor
  · rintro ⟨parts, hparts⟩
    rcases hcase with ⟨_, _, _, _, _, _, j6, _⟩ | ⟨_, _, _, _, _, k5⟩
    · exact j6
    · rcases k5 with ⟨_, _, hv, _⟩ | ⟨_, hv, _⟩ <;> rw [hv] at hparts <;> cases hparts
  · intro hall
    rcases hcase with ⟨parts, j1, _⟩ | ⟨q, _, k2, _⟩
    · exact ⟨parts, j1⟩
    · have := hall q
      omega

/-! ## The run of `main` -/

theorem maxPartSize_pos : 0 < maxPartSize := by decide

/-- The run of `main` when `CreateMultipartUpload` fails: nothing else is called. -/
theorem main_create_failed {σ : Type} (svc : S3 σ) (awsBucketName fileName fileType : String)
    (buffer : List Byte) (s s1 : σ) (err : GoError)
    (hcreate : svc.CreateMultipartUpload (createInput awsBucketName fileName fileType) s
      = (Resp.failed err, s1)) :
    (main svc awsBucketName fileName fileType buffer s).val = MainExit.createFailed
    ∧ (main svc awsBucketName fileName fileType buffer s).events
      = [Event.createMultipartUpload (createInput awsBucketName fileName fileType)
          (Resp.failed err), Event.print (LogLine.errorText err)] := by
  unfold createInput at hcreate
  simp [main, hcreate, createInput]

/-- The run of `main` when `CreateMultipartUpload` succeeds and the part loop is
not left through its condition: `main` ends with the loop. -/
theorem main_loop_failed {σ : Type} (svc : S3 σ) (awsBucketName fileName fileType : String)
    (buffer : List Byte) (s s1 : σ) (resp : CreateMultipartUploadOutput)
    (hcreate : svc.CreateMultipartUpload (createInput awsBucketName fileName fileType) s
      = (Resp.ok resp, s1))
    (hloop : ∀ parts,
      (uploadLoop svc resp buffer maxPartSize maxPartSize_pos 0 buffer.length 1 [] s1).val
        ≠ LoopExit.completed parts) :
    ((main svc awsBucketName fileName fileType buffer s).val = MainExit.partFailed
        ∧ (uploadLoop svc resp buffer maxPartSize maxPartSize_pos 0 buffer.length 1 [] s1).val
            = LoopExit.partFailed
      ∨ (main svc awsBucketName fileName fileType buffer s).val = MainExit.panicked
        ∧ (uploadLoop svc resp buffer maxPartSize maxPartSize_pos 0 buffer.length 1 [] s1).val
            = LoopExit.panicked)
    ∧ (main svc awsBucketName fileName fileType buffer s).events
      = [Event.createMultipartUpload (createInput awsBucketName fileName fileType) (Resp.ok resp),
          Event.print LogLine.createdRequest]
        ++ (uploadLoop svc resp buffer maxPartSize maxPartSize_pos 0 buffer.length 1 [] s1).events := by
  unfold createInput at hcreate
  simp only [main, hcreate]
  cases hl : (uploadLoop svc resp buffer maxPartSize maxPartSize_pos 0 buffer.length 1 [] s1).val
    with
  | completed parts => exact absurd hl (hloop parts)
  | partFailed => exact ⟨Or.inl ⟨rfl, rfl⟩, rfl⟩
  | panicked => exact ⟨Or.inr ⟨rfl, rfl⟩, rfl⟩

/-- The run of `main` when `CreateMultipartUpload` succeeds and the part loop is
left through its condition: `CompleteMultipartUpload` is called, and its response
decides how `main` ends. -/
theorem main_loop_completed {σ : Type} (svc : S3 σ) (awsBucketName fileName fileType : String)
    (buffer : List Byte) (s s1 : σ) (resp : CreateMultipartUploadOutput)
    (parts : List (Option CompletedPart))
    (hcreate : svc.CreateMultipartUpload (createInput awsBucketName fileName fileType) s
      = (Resp.ok resp, s1))
    (hloop : (uploadLoop svc resp buffer maxPartSize maxPartSize_pos 0 buffer.length 1 [] s1).val
        = LoopExit.completed parts) :
    ∃ (r : Resp CompleteMultipartUploadOutput) (tail : LogLine),
      (main svc awsBucketName fileName fileType buffer s).events
        = [Event.createMultipartUpload (createInput awsBucketName fileName fileType)
              (Resp.ok resp), Event.print LogLine.createdRequest]
          ++ (uploadLoop svc resp buffer maxPartSize maxPartSize_pos 0 buffer.length 1 [] s1).events
          ++ [Event.completeMultipartUpload (completeInputOf resp parts) r, Event.print tail]
      ∧ r = (svc.CompleteMultipartUpload (completeInputOf resp parts)
          (uploadLoop svc resp buffer maxPartSize maxPartSize_pos 0 buffer.length 1 []
            s1).state).1
      ∧ ((∃ err, r = Resp.failed err ∧ tail = LogLine.errorText err
            ∧ (main svc awsBucketName fileName fileType buffer s).val = MainExit.completeFailed)
        ∨ (∃ out, r = Resp.ok out ∧ tail = LogLine.uploadedFile out.text
            ∧ (main svc awsBucketName fileName fileType buffer s).val = MainExit.uploaded)) := by
  unfold createInput at hcreate
  simp only [main, hcreate, hloop, completeMultipartUpload]
  cases hc : (svc.CompleteMultipartUpload
      { Bucket := resp.Bucket, Key := resp.Key, UploadId := resp.UploadId, Parts := parts }
      (uploadLoop svc resp buffer maxPartSize maxPartSize_pos 0 buffer.length 1 [] s1).state).1
    with
  | failed err =>
    refine ⟨Resp.failed err, LogLine.errorText err, ?_, ?_, Or.inl ⟨err, rfl, rfl, rfl⟩⟩
    · simp [completeInputOf, createInput]
    · rw [← hc]
      rfl
  | ok out =>
    refine ⟨Resp.ok out, LogLine.uploadedFile out.text, ?_, ?_, Or.inr ⟨out, rfl, rfl, rfl⟩⟩
    · simp [completeInputOf, createInput]
    · rw [← hc]
      rfl

/-- The calls of `main` between `CreateMultipartUpload` and `CompleteMultipartUpload`
are those of the part loop. -/
theorem main_reads {σ : Type} (svc : S3 σ) (awsBucketName fileName fileType : String)
    (buffer : List Byte) (s s1 : σ) (resp : CreateMultipartUploadOutput)
    (hcreate : svc.CreateMultipartUpload (createInput awsBucketName fileName fileType) s
      = (Resp.ok resp, s1)) :
    uploadPartCalls (main svc awsBucketName fileName fileType buffer s).events
        = uploadPartCalls
            (uploadLoop svc resp buffer maxPartSize maxPartSize_pos 0 buffer.length 1 [] s1).events
    ∧ abortCalls (main svc awsBucketName fileName fileType buffer s).events
        = abortCalls
            (uploadLoop svc resp buffer maxPartSize maxPartSize_pos 0 buffer.length 1 [] s1).events
    ∧ partRanges (main svc awsBucketName fileName fileType buffer s).events
        = partRanges
            (uploadLoop svc resp buffer maxPartSize maxPartSize_pos 0 buffer.length 1 [] s1).events
    ∧ acknowledgedParts (main svc awsBucketName fileName fileType buffer s).events
        = acknowledgedParts
            (uploadLoop svc resp buffer maxPartSize maxPartSize_pos 0 buffer.length 1 [] s1).events
    ∧ (∀ m : Int, failedFor m (main svc awsBucketName fileName fileType buffer s).events
        = failedFor m
            (uploadLoop svc resp buffer maxPartSize maxPartSize_pos 0 buffer.length 1 [] s1).events)
    := by
  have key : uploadPartCalls (main svc awsBucketName fileName fileType buffer s).events
        = uploadPartCalls
            (uploadLoop svc resp buffer maxPartSize maxPartSize_pos 0 buffer.length 1 [] s1).events
      ∧ abortCalls (main svc awsBucketName fileName fileType buffer s).events
        = abortCalls
            (uploadLoop svc resp buffer maxPartSize maxPartSize_pos 0 buffer.length 1 [] s1).events
      ∧ partRanges (main svc awsBucketName fileName fileType buffer s).events
        = partRanges
            (uploadLoop svc resp buffer maxPartSize maxPartSize_pos 0 buffer.length 1 [] s1).events
      := by
    by_cases hl : ∃ parts,
        (uploadLoop svc resp buffer maxPartSize maxPartSize_pos 0 buffer.length 1 [] s1).val
          = LoopExit.completed parts
    · obtain ⟨parts, hl⟩ := hl
      obtain ⟨r, tail, hev, _, _⟩ := main_loop_completed svc awsBucketName fileName fileType
        buffer s s1 resp parts hcreate hl
      rw [hev]
      simp [uploadPartCalls_append, abortCalls_append, partRanges_append,
        uploadPartCalls, abortCalls, partRanges]
    · obtain ⟨_, hev⟩ := main_loop_failed svc awsBucketName fileName fileType
        buffer s s1 resp hcreate (fun parts h => hl ⟨parts, h⟩)
      rw [hev]
      simp [uploadPartCalls_append, abortCalls_append, partRanges_append,
        uploadPartCalls, abortCalls, partRanges]
  exact ⟨key.1, key.2.1, key.2.2, acknowledgedParts_eq_of_calls _ _ key.1,
    fun m => failedFor_eq_of_calls m _ _ key.1⟩

theorem numberedFrom_ne_none :
    ∀ (parts : List (Option CompletedPart)) (p : Int), numberedFrom p parts →
      ∀ x ∈ parts, x ≠ none := by
  intro parts
  induction parts with
  | nil => intro p _ x hx; simp at hx
  | cons y ys ih =>
    intro p h x hx
    obtain ⟨⟨part, hy, _⟩, hrest⟩ := h
    rcases List.mem_cons.1 hx with hx | hx
    · rw [hx, hy]
      simp
    · exact ih (p + 1) hrest x hx

theorem mem_completeCalls (input : CompleteMultipartUploadInput)
    (r : Resp CompleteMultipartUploadOutput) :
    ∀ es : List Event, Event.completeMultipartUpload input r ∈ es → input ∈ completeCalls es := by
  intro es
  induction es with
  | nil => intro h; simp at h
  | cons e es ih =>
    intro h
    rcases List.mem_cons.1 h with h2 | h2
    · rw [← h2]
      simp [completeCalls]
    · have h3 := ih h2
      cases e <;> simp [completeCalls, h3]

/-- Every range of the loop lies within `curr + remaining`, so within the buffer:
no `curr + partLength` exceeds the file size. -/
theorem uploadLoop_ranges_within {σ : Type} (svc : S3 σ) (resp : CreateMultipartUploadOutput)
    (buffer : List Byte) (M : Nat) (hM : 0 < M) :
    ∀ (remaining curr : Nat) (partNumber : Int) (completedParts : List (Option CompletedPart))
      (s : σ), curr + remaining ≤ buffer.length →
      ∀ r ∈ partRanges
          (uploadLoop svc resp buffer M hM curr remaining partNumber completedParts s).events,
        r.1 + r.2 ≤ curr + remaining := by
  intro remaining
  induction remaining using Nat.strong_induction_on with
  | _ remaining ih =>
    intro curr partNumber completedParts s hlen r hr
    by_cases hrem : remaining = 0
    · subst hrem
      rw [uploadLoop_zero] at hr
      simp [partRanges] at hr
    · have hle := nextLength_le_remaining M remaining
      have hnl := nextLength_pos hM hrem
      obtain ⟨h1, _, _, _, _, hcase⟩ :=
        uploadPart_summary svc resp (nextBytes buffer M curr remaining) partNumber s
      rcases hcase with ⟨part, hval, _, _, _⟩ | ⟨err, hval, _, _⟩
      · obtain ⟨_, hev⟩ := uploadLoop_step_ok_reads svc resp buffer M hM curr remaining
          partNumber completedParts s part hrem hlen hval
        rw [hev, partRanges_append, partRanges_cons_partRange, h1, List.cons_append,
          List.nil_append] at hr
        rcases List.mem_cons.1 hr with hr | hr
        · subst hr
          show curr + nextLength M remaining ≤ curr + remaining
          omega
        · have := ih (remaining - nextLength M remaining) (by omega)
            (curr + nextLength M remaining) (partNumber + 1) (completedParts ++ [some part])
            (uploadPart svc resp (nextBytes buffer M curr remaining) partNumber s).state
            (by omega) r hr
          omega
      · obtain ⟨e1, _⟩ := uploadLoop_step_err svc resp buffer M hM curr remaining
          partNumber completedParts s err hrem hlen (by rw [hval])
        rw [e1, List.mem_singleton] at hr
        subst hr
        show curr + nextLength M remaining ≤ curr + remaining
        omega

/-- The part loop panics only in `abortMultipartUpload`, when the response to
`CreateMultipartUpload` carries no upload id; the slice expression never panics. -/
theorem uploadLoop_panics_only_without_upload_id {σ : Type} (svc : S3 σ)
    (resp : CreateMultipartUploadOutput) (buffer : List Byte) (M : Nat) (hM : 0 < M)
    (remaining curr : Nat) (partNumber : Int) (completedParts : List (Option CompletedPart))
    (s : σ) (hlen : curr + remaining ≤ buffer.length)
    (hpanic : (uploadLoop svc resp buffer M hM curr remaining partNumber completedParts s).val
      = LoopExit.panicked) :
    resp.UploadId = none := by
  obtain ⟨_, _, hcase⟩ := uploadLoop_calls svc resp buffer M hM remaining curr partNumber
    completedParts s hlen
  rcases hcase with ⟨parts, hv, _⟩ | ⟨_, _, _, _, _, k5⟩
  · rw [hv] at hpanic
    cases hpanic
  · rcases k5 with ⟨_, _, hv, _⟩ | ⟨hnone, _, _⟩
    · rw [hv] at hpanic
      cases hpanic
    · exact hnone

/-- The ranges of the loop after an iteration whose `uploadPart` call succeeds. -/
theorem uploadLoop_ranges_step_ok {σ : Type} (svc : S3 σ) (resp : CreateMultipartUploadOutput)
    (buffer : List Byte) (M : Nat) (hM : 0 < M) (curr remaining : Nat) (partNumber : Int)
    (completedParts : List (Option CompletedPart)) (s : σ) (part : CompletedPart)
    (hrem : remaining ≠ 0) (hlen : curr + remaining ≤ buffer.length)
    (hval : (uploadPart svc resp (nextBytes buffer M curr remaining) partNumber s).val
      = (some part, none)) :
    partRanges (uploadLoop svc resp buffer M hM curr remaining partNumber completedParts s).events
      = (curr, nextLength M remaining)
        :: partRanges (uploadLoop svc resp buffer M hM (curr + nextLength M remaining)
            (remaining - nextLength M remaining) (partNumber + 1)
            (completedParts ++ [some part])
            (uploadPart svc resp (nextBytes buffer M curr remaining) partNumber s).state).events := by
  obtain ⟨h1, _⟩ := uploadPart_summary svc resp (nextBytes buffer M curr remaining) partNumber s
  obtain ⟨_, hev⟩ := uploadLoop_step_ok_reads svc resp buffer M hM curr remaining
    partNumber completedParts s part hrem hlen hval
  rw [hev, partRanges_append, partRanges_cons_partRange, h1, List.cons_append,
    List.nil_append]

/-! ## Runs against the sample services -/

theorem partS3_uploadPart_ok (badPart : Option Int) (completeFails : Bool)
    (resp : CreateMultipartUploadOutput) (fileBytes : List Byte) (partNumber : Int) (s : Nat)
    (hpn : some partNumber ≠ badPart) :
    (uploadPart (partS3 badPart completeFails) resp fileBytes partNumber s).val
      = (some { ETag := some "tag", PartNumber := some partNumber }, none) := by
  have hatt : attempt (partS3 badPart completeFails) (partInputOf resp fileBytes partNumber) 0 s
      = Resp.ok { ETag := some "tag" } := by
    simp only [attempt, stateAfter, partS3, partInputOf]
    rw [if_neg hpn]
  exact (uploadPartLoop_success (partS3 badPart completeFails)
    (partInputOf resp fileBytes partNumber) partNumber { ETag := some "tag" } 0 1 s
    (by decide) (fun j hj => absurd hj (by omega)) hatt).1

theorem partS3_uploadPart_bad (completeFails : Bool)
    (resp : CreateMultipartUploadOutput) (fileBytes : List Byte) (partNumber : Int) (s : Nat) :
    (uploadPart (partS3 (some partNumber) completeFails) resp fileBytes partNumber s).val
      = (none, some ⟨true, "no"⟩) := by
  have hfail : ∀ j, j < maxRetries →
      (attempt (partS3 (some partNumber) completeFails)
        (partInputOf resp fileBytes partNumber) j s).isOk = false := by
    intro j _
    simp [attempt, partS3, partInputOf, Resp.isOk]
  rcases uploadPart_cases (partS3 (some partNumber) completeFails) resp fileBytes partNumber s
    with ⟨k, out, hk, _, hok, _⟩ | ⟨err, _, hatt, hval, _⟩
  · have := hfail k hk
    rw [hok] at this
    simp [Resp.isOk] at this
  · have h2 : attempt (partS3 (some partNumber) completeFails)
        (partInputOf resp fileBytes partNumber) (maxRetries - 1) s
        = Resp.failed ⟨true, "no"⟩ := by
      simp [attempt, partS3, partInputOf]
    rw [h2] at hatt
    cases hatt
    exact hval

/-- Against a service that fails for no part the loop is left through its
condition, with one tagged part per range. -/
theorem partS3_none_loop (completeFails : Bool) (resp : CreateMultipartUploadOutput)
    (buffer : List Byte) (M : Nat) (hM : 0 < M) :
    ∀ (remaining curr : Nat) (partNumber : Int) (completedParts : List (Option CompletedPart))
      (s : Nat), curr + remaining ≤ buffer.length →
      (uploadLoop (partS3 none completeFails) resp buffer M hM curr remaining partNumber
          completedParts s).val
        = LoopExit.completed
            (completedParts ++ taggedParts partNumber (partCount remaining M)) := by
  intro remaining
  induction remaining using Nat.strong_induction_on with
  | _ remaining ih =>
    intro curr partNumber completedParts s hlen
    by_cases hrem : remaining = 0
    · subst hrem
      rw [uploadLoop_zero, partCount_zero M hM]
      simp [taggedParts]
    · have hle := nextLength_le_remaining M remaining
      have hnl := nextLength_pos hM hrem
      have hval := partS3_uploadPart_ok none completeFails resp
        (nextBytes buffer M curr remaining) partNumber s (by simp)
      obtain ⟨hv, _⟩ := uploadLoop_step_ok_reads (partS3 none completeFails) resp buffer M hM
        curr remaining partNumber completedParts s _ hrem hlen hval
      rw [hv, ih (remaining - nextLength M remaining) (by omega) _ _ _ _ (by omega),
        partCount_step M remaining hM hrem]
      simp [taggedParts]

/-- Against a service that fails for part `b` only, the loop gives part `b` all
its `maxRetries` tries when it gets to it. -/
theorem partS3_some_loop (b : Int) (completeFails : Bool) (resp : CreateMultipartUploadOutput)
    (buffer : List Byte) (M : Nat) (hM : 0 < M) :
    ∀ (remaining curr : Nat) (partNumber : Int) (completedParts : List (Option CompletedPart))
      (s : Nat), curr + remaining ≤ buffer.length → partNumber ≤ b →
      b < partNumber + partCount remaining M →
      failedFor b (uploadLoop (partS3 (some b) completeFails) resp buffer M hM curr remaining
          partNumber completedParts s).events = maxRetries := by
  intro remaining
  induction remaining using Nat.strong_induction_on with
  | _ remaining ih =>
    intro curr partNumber completedParts s hlen hlo hhi
    by_cases hrem : remaining = 0
    · subst hrem
      rw [partCount_zero M hM] at hhi
      omega
    · have hle := nextLength_le_remaining M remaining
      have hnl := nextLength_pos hM hrem
      have hcount := partCount_step M remaining hM hrem
      obtain ⟨_, _, _, _, u5, hcase⟩ := uploadPart_summary (partS3 (some b) completeFails) resp
        (nextBytes buffer M curr remaining) partNumber s
      by_cases hb : partNumber = b
      · subst hb
        have hval := partS3_uploadPart_bad completeFails resp
          (nextBytes buffer M curr remaining) partNumber s
        obtain ⟨_, e2, _⟩ := uploadLoop_step_err (partS3 (some partNumber) completeFails) resp
          buffer M hM curr remaining partNumber completedParts s ⟨true, "no"⟩ hrem hlen
          (by rw [hval])
        rw [failedFor_eq_of_calls _ _ _ e2]
        rcases hcase with ⟨part, hv2, _⟩ | ⟨err, _, _, hmany⟩
        · rw [hval] at hv2
          cases hv2
        · exact hmany
      · have hval := partS3_uploadPart_ok (some b) completeFails resp
          (nextBytes buffer M curr remaining) partNumber s
          (by intro h; exact hb (Option.some.inj h))
        obtain ⟨_, hev⟩ := uploadLoop_step_ok_reads (partS3 (some b) completeFails) resp buffer
          M hM curr remaining partNumber completedParts s _ hrem hlen hval
        rw [hev, failedFor_append]
        have h0 : failedFor b (Event.partRange curr (nextLength M remaining) partNumber
            :: (uploadPart (partS3 (some b) completeFails) resp
                (nextBytes buffer M curr remaining) partNumber s).events) = 0 :=
          u5 b (fun h => hb h.symm)
        rw [h0, ih (remaining - nextLength M remaining) (by omega) _ _ _ _ (by omega)
          (by omega) (by omega)]
        omega

/-- Against a service that fails for no part, no part of a run of `main` has
`maxRetries` failed calls. -/
theorem partS3_none_main_failedFor (completeFails : Bool)
    (awsBucketName fileName fileType : String) (buffer : List Byte) (s : Nat) :
    ∀ m : Int,
      failedFor m (main (partS3 none completeFails) awsBucketName fileName fileType buffer
        s).events < maxRetries := by
  intro m
  obtain ⟨_, _, _, _, r5⟩ := main_reads (partS3 none completeFails) awsBucketName fileName
    fileType buffer s s _ rfl
  rw [r5 m]
  obtain ⟨_, _, hcase⟩ := uploadLoop_calls (partS3 none completeFails)
    { Bucket := some awsBucketName, Key := some ("/multipartupload/" ++ fileName),
      UploadId := some "upload-1" } buffer maxPartSize maxPartSize_pos
    buffer.length 0 1 [] s (by omega)
  rcases hcase with ⟨_, _, _, _, _, _, j6, _⟩ | ⟨_, _, _, _, _, k5⟩
  · exact j6 m
  · have hv := partS3_none_loop completeFails
      { Bucket := some awsBucketName, Key := some ("/multipartupload/" ++ fileName),
        UploadId := some "upload-1" } buffer maxPartSize maxPartSize_pos buffer.length 0 1 [] s
      (by omega)
    rcases k5 with ⟨_, _, h, _⟩ | ⟨_, h, _⟩ <;> rw [hv] at h <;> cases h

theorem zeros_length (n : Nat) : (zeros n).length = n := by
  simp [zeros]

/-- The `CompleteMultipartUpload` calls of `main` when the part loop is left
through its condition: exactly one, with the parts of the loop. -/
theorem main_completeCalls_completed {σ : Type} (svc : S3 σ)
    (awsBucketName fileName fileType : String) (buffer : List Byte) (s s1 : σ)
    (resp : CreateMultipartUploadOutput) (parts : List (Option CompletedPart))
    (hcreate : svc.CreateMultipartUpload (createInput awsBucketName fileName fileType) s
      = (Resp.ok resp, s1))
    (hloop : (uploadLoop svc resp buffer maxPartSize maxPartSize_pos 0 buffer.length 1 [] s1).val
        = LoopExit.completed parts) :
    completeCalls (main svc awsBucketName fileName fileType buffer s).events
      = [completeInputOf resp parts] := by
  obtain ⟨r, tail, hev, _, _⟩ := main_loop_completed svc awsBucketName fileName fileType
    buffer s s1 resp parts hcreate hloop
  obtain ⟨hcc, _⟩ := uploadLoop_calls svc resp buffer maxPartSize maxPartSize_pos
    buffer.length 0 1 [] s1 (by omega)
  rw [hev]
  simp [completeCalls_append, completeCalls, hcc]

/-- The `CompleteMultipartUpload` calls of `main` when the part loop is left in
another way: none. -/
theorem main_completeCalls_failed {σ : Type} (svc : S3 σ)
    (awsBucketName fileName fileType : String) (buffer : List Byte) (s s1 : σ)
    (resp : CreateMultipartUploadOutput)
    (hcreate : svc.CreateMultipartUpload (createInput awsBucketName fileName fileType) s
      = (Resp.ok resp, s1))
    (hloop : ∀ parts,
      (uploadLoop svc resp buffer maxPartSize maxPartSize_pos 0 buffer.length 1 [] s1).val
        ≠ LoopExit.completed parts) :
    completeCalls (main svc awsBucketName fileName fileType buffer s).events = [] := by
  obtain ⟨_, hev⟩ := main_loop_failed svc awsBucketName fileName fileType
    buffer s s1 resp hcreate hloop
  obtain ⟨hcc, _⟩ := uploadLoop_calls svc resp buffer maxPartSize maxPartSize_pos
    buffer.length 0 1 [] s1 (by omega)
  rw [hev]
  simp [completeCalls_append, completeCalls, hcc]

/-! ## The claims -/

/-- Claim C1, as the code has it.  For every file size `S` (the length of
`buffer`) and every maximum part size `M > 0`, the ranges `(curr, partLength)` of the
part loop of `main` start at 0 and each next one starts where the one before it
ends; their lengths never sum to more than `S` and there are never more than
`ceil (S / M)` of them; none is produced for `S = 0`; and in every run in which no
part has `maxRetries` failed `UploadPart` calls (no part exhausts its retries), the
lengths sum to `S` and exactly `ceil (S / M)` ranges are produced: the ranges of
5 MiB, 5 MiB and 2 MiB for `S` = 12 MiB and `M` = 5 MiB. -/
theorem uploadLoop_partition {σ : Type} (svc : S3 σ) (resp : CreateMultipartUploadOutput)
    (buffer : List Byte) (M : Nat) (hM : 0 < M) (s : σ) :
    contiguousFrom 0
        (partRanges (uploadLoop svc resp buffer M hM 0 buffer.length 1 [] s).events)
    ∧ totalLength (partRanges (uploadLoop svc resp buffer M hM 0 buffer.length 1 [] s).events)
        ≤ buffer.length
    ∧ (partRanges (uploadLoop svc resp buffer M hM 0 buffer.length 1 [] s).events).length
        ≤ partCount buffer.length M
    ∧ (buffer.length = 0 →
        partRanges (uploadLoop svc resp buffer M hM 0 buffer.length 1 [] s).events = [])
    ∧ ((∀ m : Int,
          failedFor m (uploadLoop svc resp buffer M hM 0 buffer.length 1 [] s).events
            < maxRetries) →
        totalLength (partRanges (uploadLoop svc resp buffer M hM 0 buffer.length 1 [] s).events)
            = buffer.length
        ∧ (partRanges (uploadLoop svc resp buffer M hM 0 buffer.length 1 [] s).events).length
            = partCount buffer.length M
        ∧ (buffer.length = 12 * 1024 * 1024 → M = 5 * 1024 * 1024 →
            partRanges (uploadLoop svc resp buffer M hM 0 buffer.length 1 [] s).events
              = [(0, 5 * 1024 * 1024), (5 * 1024 * 1024, 5 * 1024 * 1024),
                 (10 * 1024 * 1024, 2 * 1024 * 1024)])) := by
  obtain ⟨h1, _, h3, h4, h5, h6⟩ :=
    uploadLoop_ranges svc resp buffer M hM buffer.length 0 1 [] s (by omega)
  refine ⟨h1, h4, h5, ?_, ?_⟩
  · intro h0
    rw [h0, uploadLoop_zero]
    rfl
  · intro hok
    obtain ⟨parts, hparts⟩ :=
      (uploadLoop_completed_iff svc resp buffer M hM buffer.length 0 1 [] s (by omega)).2 hok
    obtain ⟨h7, h8⟩ := h6 parts hparts
    refine ⟨h7, h8, ?_⟩
    intro hS hM2
    subst hM2
    generalize partRanges
      (uploadLoop svc resp buffer (5 * 1024 * 1024) hM 0 buffer.length 1 [] s).events = rs
      at h1 h3 h7 h8 ⊢
    rw [hS] at h7 h8
    have hc : partCount (12 * 1024 * 1024) (5 * 1024 * 1024) = 3 := by
      unfold partCount
      norm_num
    rw [hc] at h8
    obtain ⟨a, b, c, habc⟩ := List.length_eq_three.1 h8
    rw [habc] at h1 h3 h7 ⊢
    obtain ⟨a1, a2⟩ := a
    obtain ⟨b1, b2⟩ := b
    obtain ⟨c1, c2⟩ := c
    simp only [contiguousFrom, onlyLastShorter, totalLength, List.map_cons, List.map_nil,
      List.sum_cons, List.sum_nil, and_true] at h1 h3 h7
    obtain ⟨e1, e2, e3⟩ := h1
    obtain ⟨e4, e5⟩ := h3
    simp only [List.cons.injEq, Prod.mk.injEq, and_true]
    omega

/-- Scenario A: against a service that never fails, a file of 12 MiB is cut into
the ranges of 5 MiB, 5 MiB and 2 MiB, which sum to its size. -/
theorem uploadLoop_partition_witness :
    partRanges (uploadLoop (partS3 none false) sampleResp (zeros 12582912) maxPartSize
        maxPartSize_pos 0 (zeros 12582912).length 1 [] 0).events
      = [(0, 5 * 1024 * 1024), (5 * 1024 * 1024, 5 * 1024 * 1024),
         (10 * 1024 * 1024, 2 * 1024 * 1024)]
    ∧ totalLength (partRanges (uploadLoop (partS3 none false) sampleResp (zeros 12582912)
        maxPartSize maxPartSize_pos 0 (zeros 12582912).length 1 [] 0).events)
      = (zeros 12582912).length :=
  have hok := (uploadLoop_completed_iff (partS3 none false) sampleResp (zeros 12582912)
    maxPartSize maxPartSize_pos (zeros 12582912).length 0 1 [] 0 (by omega)).1
    ⟨_, partS3_none_loop false sampleResp (zeros 12582912) maxPartSize maxPartSize_pos
      (zeros 12582912).length 0 1 [] 0 (by omega)⟩
  have h := (uploadLoop_partition (partS3 none false) sampleResp (zeros 12582912) maxPartSize
    maxPartSize_pos 0).2.2.2.2 hok
  ⟨h.2.2 (zeros_length 12582912) rfl, h.1⟩

/-- Claim C1 as stated fails: the loop stops at a part that exhausts its retries.
For a file of 12 MiB whose part 2 of 3 fails all its tries, only the ranges of
parts 1 and 2 are produced; they sum to 10 MiB, not to the file size, and there are
two of them, not `ceil (S / M) = 3`. -/
theorem uploadLoop_ranges_stop_at_failed_part :
    partRanges (uploadLoop (partS3 (some 2) false) sampleResp (zeros 12582912) maxPartSize
        maxPartSize_pos 0 (zeros 12582912).length 1 [] 0).events
      = [(0, 5242880), (5242880, 5242880)]
    ∧ totalLength (partRanges (uploadLoop (partS3 (some 2) false) sampleResp
        (zeros 12582912) maxPartSize maxPartSize_pos 0 (zeros 12582912).length 1 [] 0).events)
      ≠ (zeros 12582912).length
    ∧ (partRanges (uploadLoop (partS3 (some 2) false) sampleResp (zeros 12582912)
        maxPartSize maxPartSize_pos 0 (zeros 12582912).length 1 [] 0).events).length
      ≠ partCount (zeros 12582912).length maxPartSize := by
  have hlen : (zeros 12582912).length = 12582912 := zeros_length _
  have hnl1 : nextLength maxPartSize 12582912 = 5242880 := by decide
  have hnl2 : nextLength maxPartSize (12582912 - 5242880) = 5242880 := by decide
  have hcount : partCount 12582912 maxPartSize = 3 := by
    unfold partCount maxPartSize
    norm_num
  have hr : partRanges (uploadLoop (partS3 (some 2) false) sampleResp (zeros 12582912)
      maxPartSize maxPartSize_pos 0 (zeros 12582912).length 1 [] 0).events
      = [(0, 5242880), (5242880, 5242880)] := by
    rw [hlen]
    rw [uploadLoop_ranges_step_ok (partS3 (some 2) false) sampleResp (zeros 12582912)
      maxPartSize maxPartSize_pos 0 12582912 1 [] 0 _ (by decide) (by rw [hlen])
      (partS3_uploadPart_ok (some 2) false sampleResp _ 1 0 (by decide)), hnl1,
      show ((1 : Int) + 1) = 2 from rfl]
    have herr : ∀ s : Nat,
        (uploadPart (partS3 (some 2) false) sampleResp
          (nextBytes (zeros 12582912) maxPartSize (0 + 5242880) (12582912 - 5242880))
          2 s).val.2 = some ⟨true, "no"⟩ := by
      intro s
      rw [partS3_uploadPart_bad false sampleResp
        (nextBytes (zeros 12582912) maxPartSize (0 + 5242880) (12582912 - 5242880)) 2 s]
    rw [(uploadLoop_step_err (partS3 (some 2) false) sampleResp (zeros 12582912) maxPartSize
      maxPartSize_pos (0 + 5242880) (12582912 - 5242880) 2 _ _ ⟨true, "no"⟩
      (by decide) (by rw [hlen]) (herr _)).1, hnl2]
  refine ⟨hr, ?_, ?_⟩
  · rw [hr, hlen]
    decide
  · rw [hr, hlen, hcount]
    decide

/-- Claim C2.  For every file size, every range of the part loop of `main` has a
length above 0 and at most the maximum part size, and every range other than the
last has exactly the maximum part size. -/
theorem uploadLoop_part_lengths {σ : Type} (svc : S3 σ) (resp : CreateMultipartUploadOutput)
    (buffer : List Byte) (M : Nat) (hM : 0 < M) (s : σ) :
    (∀ r ∈ partRanges (uploadLoop svc resp buffer M hM 0 buffer.length 1 [] s).events,
        0 < r.2 ∧ r.2 ≤ M)
    ∧ onlyLastShorter M
        (partRanges (uploadLoop svc resp buffer M hM 0 buffer.length 1 [] s).events) := by
  obtain ⟨_, h2, h3, _⟩ :=
    uploadLoop_ranges svc resp buffer M hM buffer.length 0 1 [] s (by omega)
  exact ⟨h2, h3⟩

/-- A file of 12 bytes cut with a maximum part size of 5: the last range, of 2
bytes, is within the bounds. -/
theorem uploadLoop_part_lengths_witness :
    (10, 2) ∈ partRanges (uploadLoop (flakyS3 0 none) sampleResp (zeros 12) 5 (by decide) 0
        (zeros 12).length 1 [] 0).events
    ∧ 0 < ((10, 2) : Nat × Nat).2 ∧ ((10, 2) : Nat × Nat).2 ≤ 5 :=
  have hmem : (10, 2) ∈ partRanges (uploadLoop (flakyS3 0 none) sampleResp (zeros 12) 5
      (by decide) 0 (zeros 12).length 1 [] 0).events := by
    simp [uploadLoop, uploadPart, uploadPartLoop, slice, flakyS3, zeros, maxRetries, partRanges]
  ⟨hmem, (uploadLoop_part_lengths (flakyS3 0 none) sampleResp (zeros 12) 5 (by decide) 0).1
    (10, 2) hmem⟩

/-- Claim C3.  For every part and every behaviour of the storage service,
`uploadPart` issues at most `maxRetries` `UploadPart` calls; and for every `k` with
`1 ≤ k ≤ maxRetries`, when the first `k - 1` calls fail and the `k`-th succeeds,
`uploadPart` issues exactly `k` calls and returns a part and a nil error. -/
theorem uploadPart_retry_bound {σ : Type} (svc : S3 σ) (resp : CreateMultipartUploadOutput)
    (fileBytes : List Byte) (partNumber : Int) (s : σ) :
    (uploadPartCalls (uploadPart svc resp fileBytes partNumber s).events).length ≤ maxRetries
    ∧ ∀ (k : Nat) (out : UploadPartOutput), 1 ≤ k → k ≤ maxRetries →
        (∀ j, j < k - 1 →
          (attempt svc (partInputOf resp fileBytes partNumber) j s).isOk = false) →
        attempt svc (partInputOf resp fileBytes partNumber) (k - 1) s = Resp.ok out →
        (uploadPartCalls (uploadPart svc resp fileBytes partNumber s).events).length = k
          ∧ (uploadPart svc resp fileBytes partNumber s).val
              = (some { ETag := out.ETag, PartNumber := some partNumber }, none) := by
  constructor
  · rw [uploadPart_eq]
    exact uploadPartLoop_calls_le svc _ partNumber maxRetries 1 s (by omega)
  · intro k out hk1 hk2 hfail hok
    rw [uploadPart_eq]
    obtain ⟨hval, _, hev⟩ :=
      uploadPartLoop_success svc (partInputOf resp fileBytes partNumber) partNumber out
        (k - 1) 1 s (by omega) hfail hok
    refine ⟨?_, hval⟩
    rw [hev, uploadPartCalls_append, List.length_append, uploadPartCalls_failedTries]
    simp only [uploadPartCalls, List.length_cons, List.length_nil]
    omega

/-- Scenario B: a part of 1 KiB whose upload fails nine times and succeeds on the
tenth try is uploaded with exactly ten calls. -/
theorem uploadPart_retry_bound_witness :
    (uploadPartCalls
        (uploadPart (flakyS3 9 (some "tag")) sampleResp (zeros 1024) 1 0).events).length = 10
    ∧ (uploadPart (flakyS3 9 (some "tag")) sampleResp (zeros 1024) 1 0).val
        = (some { ETag := some "tag", PartNumber := some 1 }, none) :=
  (uploadPart_retry_bound (flakyS3 9 (some "tag")) sampleResp (zeros 1024) 1 0).2 10
    { ETag := some "tag" } (by decide) (by decide) (by decide) (by decide)

/-- The abort path when the response carries an upload id.  In every run in which
`CreateMultipartUpload` succeeded and returned an upload id, and in which some part
`n` had `maxRetries` failed `UploadPart` calls (it exhausted its retries), `main`
calls `AbortMultipartUpload` exactly once, with the bucket, key and upload id of the
`CreateMultipartUpload` response, never calls `CompleteMultipartUpload`, issues no
`UploadPart` call for a part after `n`, and ends through the failure return of the
part loop. -/
theorem main_abort_on_part_failure {σ : Type} (svc : S3 σ)
    (awsBucketName fileName fileType : String) (buffer : List Byte) (s s1 : σ)
    (resp : CreateMultipartUploadOutput) (uploadId : String) (n : Int)
    (hcreate : svc.CreateMultipartUpload (createInput awsBucketName fileName fileType) s
      = (Resp.ok resp, s1))
    (hid : resp.UploadId = some uploadId)
    (hfail : failedFor n (main svc awsBucketName fileName fileType buffer s).events
      = maxRetries) :
    abortCalls (main svc awsBucketName fileName fileType buffer s).events
        = [{ Bucket := resp.Bucket, Key := resp.Key, UploadId := some uploadId }]
    ∧ completeCalls (main svc awsBucketName fileName fileType buffer s).events = []
    ∧ (∀ c ∈ uploadPartCalls (main svc awsBucketName fileName fileType buffer s).events,
        ∃ m : Int, c.1.PartNumber = some m ∧ m ≤ n)
    ∧ (main svc awsBucketName fileName fileType buffer s).val = MainExit.partFailed := by
  obtain ⟨r1, r2, _, _, r5⟩ := main_reads svc awsBucketName fileName fileType buffer s s1 resp
    hcreate
  rw [r5 n] at hfail
  obtain ⟨_, _, hcase⟩ := uploadLoop_calls svc resp buffer maxPartSize maxPartSize_pos
    buffer.length 0 1 [] s1 (by omega)
  rcases hcase with ⟨parts, _, _, _, _, _, j6, _⟩ | ⟨q, _, k2, k3, k4, k5⟩
  · have := j6 n
    omega
  · have hq : n = q := by
      by_contra hne
      have := k3 n hne
      omega
    subst hq
    rcases k5 with ⟨uid, huid, hv, hab⟩ | ⟨hnone, _, _⟩
    · rw [hid] at huid
      cases huid
      have hloop : ∀ parts,
          (uploadLoop svc resp buffer maxPartSize maxPartSize_pos 0 buffer.length 1 [] s1).val
            ≠ LoopExit.completed parts := by
        intro parts h
        rw [hv] at h
        cases h
      obtain ⟨hexit, _⟩ := main_loop_failed svc awsBucketName fileName fileType
        buffer s s1 resp hcreate hloop
      refine ⟨by rw [r2, hab], ?_, ?_, ?_⟩
      · exact main_completeCalls_failed svc awsBucketName fileName fileType buffer s s1 resp
          hcreate hloop
      · intro c hc
        rw [r1] at hc
        exact k4 c hc
      · rcases hexit with ⟨h, _⟩ | ⟨_, h⟩
        · exact h
        · rw [hv] at h
          cases h
    · rw [hid] at hnone
      cases hnone

/-- Scenario C with an upload id: a file of 12 MiB whose part 2 of 3 fails all its
tries.  One abort for the session, no completion, and the run ends in failure. -/
theorem main_abort_on_part_failure_sample :
    failedFor 2 (main (partS3 (some 2) false) "b" "f" "text/plain" (zeros 12582912) 0).events
      = maxRetries
    ∧ abortCalls (main (partS3 (some 2) false) "b" "f" "text/plain" (zeros 12582912) 0).events
      = [{ Bucket := some "b", Key := some ("/multipartupload/" ++ "f"),
           UploadId := some "upload-1" }]
    ∧ completeCalls (main (partS3 (some 2) false) "b" "f" "text/plain" (zeros 12582912)
        0).events = []
    ∧ (main (partS3 (some 2) false) "b" "f" "text/plain" (zeros 12582912) 0).val
      = MainExit.partFailed := by
  have hcount : partCount (zeros 12582912).length maxPartSize = 3 := by
    rw [zeros_length]
    unfold partCount maxPartSize
    norm_num
  have hfail : failedFor 2
      (main (partS3 (some 2) false) "b" "f" "text/plain" (zeros 12582912) 0).events
      = maxRetries := by
    rw [(main_reads (partS3 (some 2) false) "b" "f" "text/plain" (zeros 12582912) 0 0 _
      rfl).2.2.2.2 2]
    exact partS3_some_loop 2 false _ (zeros 12582912) maxPartSize maxPartSize_pos
      (zeros 12582912).length 0 1 [] 0 (by omega) (by decide) (by rw [hcount]; decide)
  have h := main_abort_on_part_failure (partS3 (some 2) false) "b" "f" "text/plain"
    (zeros 12582912) 0 0
    { Bucket := some "b", Key := some ("/multipartupload/" ++ "f"), UploadId := some "upload-1" }
    "upload-1" 2 rfl rfl hfail
  exact ⟨hfail, h.1, h.2.1, h.2.2.2⟩

/-- Claim C5.  In every run in which `CreateMultipartUpload` succeeded and no part
had `maxRetries` failed `UploadPart` calls (every part upload succeeded in the end),
`main` calls `CompleteMultipartUpload` exactly once, for the session of the
`CreateMultipartUpload` response, with a list of non-nil parts that has one entry
per range of the loop, `ceil (S / maxPartSize)` of them, numbered 1, 2, ... in this
order, each with the tag of the successful `UploadPart` response for that part; no
abort is called; and for an empty file no `UploadPart` call is made and the list is
empty. -/
theorem main_complete_parts {σ : Type} (svc : S3 σ)
    (awsBucketName fileName fileType : String) (buffer : List Byte) (s s1 : σ)
    (resp : CreateMultipartUploadOutput)
    (hcreate : svc.CreateMultipartUpload (createInput awsBucketName fileName fileType) s
      = (Resp.ok resp, s1))
    (hok : ∀ m : Int, failedFor m (main svc awsBucketName fileName fileType buffer s).events
      < maxRetries) :
    ∃ parts : List (Option CompletedPart),
      completeCalls (main svc awsBucketName fileName fileType buffer s).events
          = [{ Bucket := resp.Bucket, Key := resp.Key, UploadId := resp.UploadId,
               Parts := parts }]
      ∧ parts = acknowledgedParts (main svc awsBucketName fileName fileType buffer s).events
      ∧ numberedFrom 1 parts
      ∧ parts.length = partCount buffer.length maxPartSize
      ∧ parts.length
          = (partRanges (main svc awsBucketName fileName fileType buffer s).events).length
      ∧ abortCalls (main svc awsBucketName fileName fileType buffer s).events = []
      ∧ (buffer.length = 0 →
          uploadPartCalls (main svc awsBucketName fileName fileType buffer s).events = []
          ∧ parts = []) := by
  obtain ⟨r1, r2, r3, r4, r5⟩ := main_reads svc awsBucketName fileName fileType buffer s s1
    resp hcreate
  obtain ⟨_, _, hcase⟩ := uploadLoop_calls svc resp buffer maxPartSize maxPartSize_pos
    buffer.length 0 1 [] s1 (by omega)
  rcases hcase with ⟨parts, j1, j2, j3, j4, j5, _, j7⟩ | ⟨q, _, k2, _⟩
  · obtain ⟨_, _, _, _, _, g6⟩ := uploadLoop_ranges svc resp buffer maxPartSize maxPartSize_pos
      buffer.length 0 1 [] s1 (by omega)
    obtain ⟨_, g8⟩ := g6 parts j1
    rw [List.nil_append] at j2
    refine ⟨parts, ?_, by rw [r4, j2], by rw [j2]; exact j3, by rw [j2]; exact j4, ?_,
      by rw [r2, j5], ?_⟩
    · exact main_completeCalls_completed svc awsBucketName fileName fileType buffer s s1 resp
        parts hcreate j1
    · rw [r3, g8, j2]
      exact j4
    · intro h0
      refine ⟨by rw [r1]; exact j7 h0, ?_⟩
      have hlen0 : (acknowledgedParts
          (uploadLoop svc resp buffer maxPartSize maxPartSize_pos 0 buffer.length 1 []
            s1).events).length = 0 := by
        rw [j4, h0, partCount_zero maxPartSize maxPartSize_pos]
      rw [j2]
      exact List.length_eq_zero.1 hlen0
  · have := hok q
    rw [r5 q, k2] at this
    omega

/-- Scenario A: a file of 12 MiB whose parts all succeed at once is completed with
three parts, numbered 1, 2, 3, each with the tag of its response. -/
theorem main_complete_parts_witness :
    completeCalls (main (partS3 none false) "b" "f" "text/plain" (zeros 12582912) 0).events
      = [{ Bucket := some "b", Key := some ("/multipartupload/" ++ "f"),
           UploadId := some "upload-1",
           Parts := [some { ETag := some "tag", PartNumber := some 1 },
                     some { ETag := some "tag", PartNumber := some 2 },
                     some { ETag := some "tag", PartNumber := some 3 }] }]
    ∧ abortCalls (main (partS3 none false) "b" "f" "text/plain" (zeros 12582912) 0).events
      = [] := by
  have hcount : partCount (zeros 12582912).length maxPartSize = 3 := by
    rw [zeros_length]
    unfold partCount maxPartSize
    norm_num
  have hparts := partS3_none_loop false
    { Bucket := some "b", Key := some ("/multipartupload/" ++ "f"), UploadId := some "upload-1" }
    (zeros 12582912) maxPartSize maxPartSize_pos (zeros 12582912).length 0 1 [] 0 (by omega)
  rw [hcount] at hparts
  have hcc := main_completeCalls_completed (partS3 none false) "b" "f" "text/plain"
    (zeros 12582912) 0 0 _ _ rfl hparts
  obtain ⟨parts, h1, _, _, _, _, h6, _⟩ := main_complete_parts (partS3 none false) "b" "f"
    "text/plain" (zeros 12582912) 0 0
    { Bucket := some "b", Key := some ("/multipartupload/" ++ "f"), UploadId := some "upload-1" }
    rfl (partS3_none_main_failedFor false "b" "f" "text/plain" (zeros 12582912) 0)
  refine ⟨?_, h6⟩
  rw [hcc]
  rfl

/-- Claim C6.  In every run in which `CompleteMultipartUpload` was called and
failed (which happens only after every part was uploaded), `main` writes the error
and returns without any `AbortMultipartUpload` call. -/
theorem main_no_abort_after_failed_complete {σ : Type} (svc : S3 σ)
    (awsBucketName fileName fileType : String) (buffer : List Byte) (s : σ)
    (input : CompleteMultipartUploadInput) (err : GoError)
    (hmem : Event.completeMultipartUpload input (Resp.failed err)
      ∈ (main svc awsBucketName fileName fileType buffer s).events) :
    abortCalls (main svc awsBucketName fileName fileType buffer s).events = []
    ∧ (main svc awsBucketName fileName fileType buffer s).val = MainExit.completeFailed
    ∧ (main svc awsBucketName fileName fileType buffer s).events.getLast?
        = some (Event.print (LogLine.errorText err))
    ∧ (∀ m : Int, failedFor m (main svc awsBucketName fileName fileType buffer s).events
        < maxRetries) := by
  cases hcreate : svc.CreateMultipartUpload (createInput awsBucketName fileName fileType) s with
  | mk r s1 =>
    cases r with
    | failed e =>
      obtain ⟨_, hev⟩ := main_create_failed svc awsBucketName fileName fileType buffer s s1 e
        hcreate
      rw [hev] at hmem
      simp at hmem
    | ok resp =>
      obtain ⟨_, r2, _, _, r5⟩ := main_reads svc awsBucketName fileName fileType buffer s s1
        resp hcreate
      obtain ⟨hcc, _, hcase⟩ := uploadLoop_calls svc resp buffer maxPartSize maxPartSize_pos
        buffer.length 0 1 [] s1 (by omega)
      have hnot : Event.completeMultipartUpload input (Resp.failed err)
          ∉ (uploadLoop svc resp buffer maxPartSize maxPartSize_pos 0 buffer.length 1 []
              s1).events := by
        intro h
        have := mem_completeCalls input (Resp.failed err) _ h
        rw [hcc] at this
        simp at this
      rcases hcase with ⟨parts, j1, _, _, _, j5, j6, _⟩ | ⟨q, _, _, _, _, k5⟩
      · obtain ⟨r, tail, hev, _, hend⟩ := main_loop_completed svc awsBucketName fileName fileType
          buffer s s1 resp parts hcreate j1
        have hr : r = Resp.failed err := by
          rw [hev] at hmem
          simp only [List.mem_append, List.mem_cons, List.mem_singleton, List.not_mem_nil,
            or_false] at hmem
          rcases hmem with (((h | h) | h) | h | h)
          · cases h
          · cases h
          · exact absurd h hnot
          · cases h
            rfl
          · cases h
        rcases hend with ⟨e, he, htail, hv⟩ | ⟨out, ho, _, _⟩
        · rw [hr] at he
          cases he
          refine ⟨by rw [r2, j5], hv, ?_, fun m => by rw [r5 m]; exact j6 m⟩
          rw [hev, htail, List.getLast?_append]
          rfl
        · rw [hr] at ho
          cases ho
      · have hloop : ∀ parts,
            (uploadLoop svc resp buffer maxPartSize maxPartSize_pos 0 buffer.length 1 [] s1).val
              ≠ LoopExit.completed parts := by
          intro parts h
          rcases k5 with ⟨_, _, hv, _⟩ | ⟨_, hv, _⟩ <;> rw [hv] at h <;> cases h
        obtain ⟨_, hev⟩ := main_loop_failed svc awsBucketName fileName fileType
          buffer s s1 resp hcreate hloop
        rw [hev] at hmem
        simp only [List.mem_append, List.mem_cons, List.mem_singleton, List.not_mem_nil,
          or_false] at hmem
        rcases hmem with (h | h) | h
        · cases h
        · cases h
        · exact absurd h hnot

/-- A file of 1 KiB whose only part is uploaded and whose completion fails: the
run ends there, without an abort. -/
theorem main_no_abort_after_failed_complete_witness :
    abortCalls (main (partS3 none true) "b" "f" "text/plain" (zeros 1024) 0).events = []
    ∧ (main (partS3 none true) "b" "f" "text/plain" (zeros 1024) 0).val
        = MainExit.completeFailed
    ∧ (main (partS3 none true) "b" "f" "text/plain" (zeros 1024) 0).events.getLast?
        = some (Event.print (LogLine.errorText ⟨true, "cannot complete"⟩)) := by
  have hparts := partS3_none_loop true
    { Bucket := some "b", Key := some ("/multipartupload/" ++ "f"), UploadId := some "upload-1" }
    (zeros 1024) maxPartSize maxPartSize_pos (zeros 1024).length 0 1 [] 0 (by omega)
  obtain ⟨r, tail, hev, hr, _⟩ := main_loop_completed (partS3 none true) "b" "f" "text/plain"
    (zeros 1024) 0 0 _ _ rfl hparts
  have hr2 : r = Resp.failed ⟨true, "cannot complete"⟩ := by
    rw [hr]
    rfl
  have hmem : Event.completeMultipartUpload
      (completeInputOf
        { Bucket := some "b", Key := some ("/multipartupload/" ++ "f"),
          UploadId := some "upload-1" }
        ([] ++ taggedParts 1 (partCount (zeros 1024).length maxPartSize)))
      (Resp.failed ⟨true, "cannot complete"⟩)
      ∈ (main (partS3 none true) "b" "f" "text/plain" (zeros 1024) 0).events := by
    rw [hev, hr2]
    exact List.mem_append_right _ (List.mem_cons_self _ _)
  have h := main_no_abort_after_failed_complete (partS3 none true) "b" "f" "text/plain"
    (zeros 1024) 0 _ _ hmem
  exact ⟨h.1, h.2.1, h.2.2.1⟩

/-- Claim C7, as the code has it.  When all `maxRetries` tries of a part fail,
`uploadPart` returns no `CompletedPart`, and the error it returns is the very error
value of the last, `maxRetries`-th, failed `UploadPart` call, returned as it was
received (nothing about the part is added to it). -/
theorem uploadPart_exhausted_last_error {σ : Type} (svc : S3 σ)
    (resp : CreateMultipartUploadOutput) (fileBytes : List Byte) (partNumber : Int) (s : σ)
    (hfail : ∀ j, j < maxRetries →
      (attempt svc (partInputOf resp fileBytes partNumber) j s).isOk = false) :
    ∃ err, attempt svc (partInputOf resp fileBytes partNumber) (maxRetries - 1) s
        = Resp.failed err
      ∧ (uploadPart svc resp fileBytes partNumber s).val = (none, some err) := by
  have hpos := maxRetries_pos
  obtain ⟨err, hatt, hval, _, _⟩ :=
    uploadPartLoop_exhausted svc (partInputOf resp fileBytes partNumber) partNumber
      (maxRetries - 1) 1 s (by omega) (fun j hj => hfail j (by omega))
  exact ⟨err, hatt, by rw [uploadPart_eq]; exact hval⟩

/-- Ten failures with ten different causes: the error returned is the tenth, not
the first. -/
theorem uploadPart_exhausted_last_error_witness :
    attempt (flakyS3 10 none) (partInputOf sampleResp (zeros 4) 2) 0 0
        = Resp.failed ⟨true, "failure of call 1"⟩
    ∧ attempt (flakyS3 10 none) (partInputOf sampleResp (zeros 4) 2) (maxRetries - 1) 0
        = Resp.failed ⟨true, "failure of call 10"⟩
    ∧ (uploadPart (flakyS3 10 none) sampleResp (zeros 4) 2 0).val
        = (none, some ⟨true, "failure of call 10"⟩) := by
  obtain ⟨err, hatt, hval⟩ :=
    uploadPart_exhausted_last_error (flakyS3 10 none) sampleResp (zeros 4) 2 0 (by decide)
  have h10 : attempt (flakyS3 10 none) (partInputOf sampleResp (zeros 4) 2) (maxRetries - 1) 0
      = Resp.failed ⟨true, "failure of call 10"⟩ := by decide
  rw [h10] at hatt
  cases hatt
  exact ⟨by decide, h10, hval⟩

/-- Claim C7 as stated fails: the error returned after ten failed tries does not
identify the part.  Against a service that always fails, the calls for part 1 and
for part 2 return the same error, so no reading of the error gives the sequence
number. -/
theorem uploadPart_error_names_no_part :
    ¬ ∃ seqOf : GoError → Int, ∀ (partNumber : Int) (err : GoError),
        (uploadPart (flakyS3 10 none) sampleResp (zeros 4) partNumber 0).val
            = (none, some err) →
          seqOf err = partNumber := by
  rintro ⟨seqOf, h⟩
  have h1 := h 1 _ (flakyS3_uploadPart_exhausted sampleResp (zeros 4) 1)
  have h2 := h 2 _ (flakyS3_uploadPart_exhausted sampleResp (zeros 4) 2)
  omega

/-- Claim C8, as the code has it.  The `CompletedPart` of a successful `uploadPart`
call carries the given sequence number and the tag of the successful `UploadPart`
response, which is the last call made; when that response has no tag, the part has
no tag either (a nil `ETag`), and the text `<nil>` stands for the tag only in the
line written to standard output. -/
theorem uploadPart_completedPart {σ : Type} (svc : S3 σ) (resp : CreateMultipartUploadOutput)
    (fileBytes : List Byte) (partNumber : Int) (s : σ) (part : CompletedPart)
    (hpart : (uploadPart svc resp fileBytes partNumber s).val.1 = some part) :
    ∃ out : UploadPartOutput,
      (uploadPartCalls (uploadPart svc resp fileBytes partNumber s).events).getLast?
          = some (partInputOf resp fileBytes partNumber, Resp.ok out)
      ∧ part.PartNumber = some partNumber
      ∧ part.ETag = out.ETag
      ∧ (logLines (uploadPart svc resp fileBytes partNumber s).events).getLast?
          = some (LogLine.uploaded partNumber (valueOr out.ETag "<nil>"))
      ∧ (out.ETag = none → part.ETag = none
          ∧ (logLines (uploadPart svc resp fileBytes partNumber s).events).getLast?
              = some (LogLine.uploaded partNumber "<nil>")) := by
  rcases uploadPart_cases svc resp fileBytes partNumber s with
    ⟨k, out, _, _, _, hval, _, hev⟩ | ⟨err, _, _, hval, _, _⟩
  · rw [hval] at hpart
    cases hpart
    refine ⟨out, ?_, rfl, rfl, ?_, ?_⟩
    · rw [hev, uploadPartCalls_append]
      simp [uploadPartCalls]
    · rw [hev, logLines_append]
      simp [logLines]
    · intro hnone
      refine ⟨hnone, ?_⟩
      rw [hev, logLines_append, hnone]
      simp [logLines, valueOr]
  · rw [hval] at hpart
    cases hpart

/-- A response without a tag gives a part without a tag. -/
theorem uploadPart_completedPart_witness :
    (uploadPart (flakyS3 0 none) sampleResp (zeros 4) 1 0).val.1
        = some { ETag := none, PartNumber := some 1 }
    ∧ ∃ out : UploadPartOutput,
      (uploadPartCalls (uploadPart (flakyS3 0 none) sampleResp (zeros 4) 1 0).events).getLast?
          = some (partInputOf sampleResp (zeros 4) 1, Resp.ok out)
      ∧ (⟨none, some 1⟩ : CompletedPart).PartNumber = some 1
      ∧ (⟨none, some 1⟩ : CompletedPart).ETag = out.ETag
      ∧ (logLines (uploadPart (flakyS3 0 none) sampleResp (zeros 4) 1 0).events).getLast?
          = some (LogLine.uploaded 1 (valueOr out.ETag "<nil>"))
      ∧ (out.ETag = none → (⟨none, some 1⟩ : CompletedPart).ETag = none
          ∧ (logLines (uploadPart (flakyS3 0 none) sampleResp (zeros 4) 1 0).events).getLast?
              = some (LogLine.uploaded 1 "<nil>")) :=
  have h : (uploadPart (flakyS3 0 none) sampleResp (zeros 4) 1 0).val.1
      = some { ETag := none, PartNumber := some 1 } := by
    simp [uploadPart, uploadPartLoop, flakyS3, maxRetries]
  ⟨h, uploadPart_completedPart (flakyS3 0 none) sampleResp (zeros 4) 1 0 _ h⟩

/-- Claim C8 as stated fails: when the successful response has no tag, the
`CompletedPart` returned has a nil `ETag`, not a sentinel value. -/
theorem uploadPart_missing_tag_is_nil :
    attempt (flakyS3 0 none) (partInputOf sampleResp (zeros 4) 1) 0 0
        = Resp.ok { ETag := none }
    ∧ ∃ part : CompletedPart,
        (uploadPart (flakyS3 0 none) sampleResp (zeros 4) 1 0).val = (some part, none)
        ∧ part.ETag = none := by
  refine ⟨by decide, ⟨none, some 1⟩, ?_, rfl⟩
  simp [uploadPart, uploadPartLoop, flakyS3, maxRetries]

/-- Claim C9, as the code has it.  The lines `uploadPart` writes are: one retry
notice, giving the part's sequence number only, for every failed try that is
followed by another try, and then one success line (sequence number and tag, `<nil>`
for a missing tag) when a try succeeds.  A successful call writes as many retry
notices as tries failed; a call whose `maxRetries` tries all fail writes
`maxRetries - 1` retry notices and no other line. -/
theorem uploadPart_log_lines {σ : Type} (svc : S3 σ) (resp : CreateMultipartUploadOutput)
    (fileBytes : List Byte) (partNumber : Int) (s : σ) :
    (∀ part, (uploadPart svc resp fileBytes partNumber s).val = (some part, none) →
        logLines (uploadPart svc resp fileBytes partNumber s).events
          = List.replicate (failedCalls (uploadPart svc resp fileBytes partNumber s).events)
                (LogLine.retrying partNumber)
              ++ [LogLine.uploaded partNumber (valueOr part.ETag "<nil>")])
    ∧ (∀ err, (uploadPart svc resp fileBytes partNumber s).val = (none, some err) →
        failedCalls (uploadPart svc resp fileBytes partNumber s).events = maxRetries
        ∧ logLines (uploadPart svc resp fileBytes partNumber s).events
            = List.replicate (maxRetries - 1) (LogLine.retrying partNumber)) := by
  have hpos := maxRetries_pos
  rcases uploadPart_cases svc resp fileBytes partNumber s with
    ⟨k, out, _, hfail, _, hval, _, hev⟩ | ⟨err, hfail, _, hval, _, hev⟩
  · constructor
    · intro part hpart
      rw [hval] at hpart
      cases hpart
      rw [hev, logLines_append, logLines_failedTries, failedCalls_append,
        failedCalls_failedTries _ _ _ _ _ hfail]
      simp [logLines, failedCalls, uploadPartCalls, Resp.isOk]
    · intro err hpart
      rw [hval] at hpart
      cases hpart
  · constructor
    · intro part hpart
      rw [hval] at hpart
      cases hpart
    · intro err2 _
      rw [hev, logLines_append, logLines_failedTries, failedCalls_append,
        failedCalls_failedTries _ _ _ _ _ (fun j hj => hfail j (by omega))]
      simp [logLines, failedCalls, uploadPartCalls, Resp.isOk]
      omega

/-- Nine failed tries and a success: nine retry notices and the success line. -/
theorem uploadPart_log_lines_witness :
    (uploadPart (flakyS3 9 (some "tag")) sampleResp (zeros 1024) 1 0).val
        = (some ⟨some "tag", some 1⟩, none)
    ∧ logLines (uploadPart (flakyS3 9 (some "tag")) sampleResp (zeros 1024) 1 0).events
        = List.replicate
            (failedCalls (uploadPart (flakyS3 9 (some "tag")) sampleResp (zeros 1024) 1 0).events)
            (LogLine.retrying 1)
          ++ [LogLine.uploaded 1 (valueOr (⟨some "tag", some 1⟩ : CompletedPart).ETag "<nil>")] :=
  have h := (flakyS3_uploadPart_ok 9 (some "tag") sampleResp (zeros 1024) 1 (by decide)).1
  ⟨h, (uploadPart_log_lines (flakyS3 9 (some "tag")) sampleResp (zeros 1024) 1 0).1 _ h⟩

/-- Claim C9 as stated fails: a call whose ten tries all fail writes nine retry
notices, one fewer than the failed tries, and the notices of different tries are
the same line (they carry no try number). -/
theorem uploadPart_retry_lines_one_less :
    failedCalls (uploadPart (flakyS3 10 none) sampleResp (zeros 4) 2 0).events = 10
    ∧ logLines (uploadPart (flakyS3 10 none) sampleResp (zeros 4) 2 0).events
        = List.replicate 9 (LogLine.retrying 2)
    ∧ (logLines (uploadPart (flakyS3 10 none) sampleResp (zeros 4) 2 0).events).length
        ≠ failedCalls (uploadPart (flakyS3 10 none) sampleResp (zeros 4) 2 0).events := by
  have hfail := flakyS3_all_fail 10 none (partInputOf sampleResp (zeros 4) 2) (by decide)
  obtain ⟨err, _, _, _, hev⟩ :=
    uploadPartLoop_exhausted (flakyS3 10 none) (partInputOf sampleResp (zeros 4) 2) 2
      9 1 0 (by decide) (fun j hj => hfail j (by simp only [maxRetries]; omega))
  rw [uploadPart_eq, hev, logLines_append, logLines_failedTries, failedCalls_append,
    failedCalls_failedTries _ _ _ _ _ (fun j hj => hfail j (by simp only [maxRetries]; omega))]
  simp [logLines, failedCalls, uploadPartCalls, Resp.isOk]

/-- Claim C10.  Every `uploadPart` call returns (the embedding is a total
function) exactly one of a non-nil part with a nil error or a nil part with a
non-nil error, never the pair of two nils of the fall-through after the loop; and
no entry of the list that `main` passes to `CompleteMultipartUpload` is nil. -/
theorem uploadPart_never_nil_nil {σ : Type} (svc : S3 σ) (resp : CreateMultipartUploadOutput)
    (fileBytes : List Byte) (partNumber : Int) (s : σ)
    (awsBucketName fileName fileType : String) (buffer : List Byte) :
    ((∃ part, (uploadPart svc resp fileBytes partNumber s).val = (some part, none))
      ∨ (∃ err, (uploadPart svc resp fileBytes partNumber s).val = (none, some err)))
    ∧ (uploadPart svc resp fileBytes partNumber s).val ≠ (none, none)
    ∧ (∀ input ∈ completeCalls (main svc awsBucketName fileName fileType buffer s).events,
        ∀ p ∈ input.Parts, p ≠ none) := by
  have h1 : (∃ part, (uploadPart svc resp fileBytes partNumber s).val = (some part, none))
      ∨ (∃ err, (uploadPart svc resp fileBytes partNumber s).val = (none, some err)) := by
    rcases uploadPart_cases svc resp fileBytes partNumber s with
      ⟨_, out, _, _, _, hval, _⟩ | ⟨err, _, _, hval, _⟩
    · exact Or.inl ⟨_, hval⟩
    · exact Or.inr ⟨err, hval⟩
  refine ⟨h1, ?_, ?_⟩
  · rcases h1 with ⟨part, h⟩ | ⟨err, h⟩ <;> rw [h] <;> simp
  · intro input hin p hp
    cases hcreate : svc.CreateMultipartUpload (createInput awsBucketName fileName fileType) s
      with
    | mk r s1 =>
      cases r with
      | failed e =>
        obtain ⟨_, hev⟩ := main_create_failed svc awsBucketName fileName fileType buffer s s1 e
          hcreate
        rw [hev] at hin
        simp [completeCalls] at hin
      | ok resp2 =>
        obtain ⟨_, _, hcase⟩ := uploadLoop_calls svc resp2 buffer maxPartSize maxPartSize_pos
          buffer.length 0 1 [] s1 (by omega)
        rcases hcase with ⟨parts, j1, j2, j3, _⟩ | ⟨q, _, _, _, _, k5⟩
        · rw [main_completeCalls_completed svc awsBucketName fileName fileType buffer s s1 resp2
            parts hcreate j1, List.mem_singleton] at hin
          rw [hin] at hp
          rw [List.nil_append] at j2
          rw [← j2] at j3
          exact numberedFrom_ne_none parts 1 j3 p hp
        · have hloop : ∀ parts,
              (uploadLoop svc resp2 buffer maxPartSize maxPartSize_pos 0 buffer.length 1 []
                s1).val ≠ LoopExit.completed parts := by
            intro parts h
            rcases k5 with ⟨_, _, hv, _⟩ | ⟨_, hv, _⟩ <;> rw [hv] at h <;> cases h
          rw [main_completeCalls_failed svc awsBucketName fileName fileType buffer s s1 resp2
            hcreate hloop] at hin
          simp at hin

/-- A file of 1 KiB uploaded in one part: the list passed to
`CompleteMultipartUpload` holds that part, not a nil. -/
theorem uploadPart_never_nil_nil_witness :
    completeCalls (main (partS3 none false) "b" "f" "text/plain" (zeros 1024) 0).events
      = [{ Bucket := some "b", Key := some ("/multipartupload/" ++ "f"),
           UploadId := some "upload-1",
           Parts := [some { ETag := some "tag", PartNumber := some 1 }] }]
    ∧ (some { ETag := some "tag", PartNumber := some 1 } : Option CompletedPart) ≠ none := by
  have hcount : partCount (zeros 1024).length maxPartSize = 1 := by
    rw [zeros_length]
    unfold partCount maxPartSize
    norm_num
  have hparts := partS3_none_loop false
    { Bucket := some "b", Key := some ("/multipartupload/" ++ "f"), UploadId := some "upload-1" }
    (zeros 1024) maxPartSize maxPartSize_pos (zeros 1024).length 0 1 [] 0 (by omega)
  rw [hcount] at hparts
  have hcc := main_completeCalls_completed (partS3 none false) "b" "f" "text/plain"
    (zeros 1024) 0 0 _ _ rfl hparts
  have hcc2 : completeCalls
      (main (partS3 none false) "b" "f" "text/plain" (zeros 1024) 0).events
      = [{ Bucket := some "b", Key := some ("/multipartupload/" ++ "f"),
           UploadId := some "upload-1",
           Parts := [some { ETag := some "tag", PartNumber := some 1 }] }] := by
    rw [hcc]
    rfl
  refine ⟨hcc2, ?_⟩
  exact (uploadPart_never_nil_nil (partS3 none false) sampleResp (zeros 4) 1 0 "b" "f"
    "text/plain" (zeros 1024)).2.2 _ (by rw [hcc2]; exact List.mem_singleton.2 rfl) _
    (List.mem_singleton.2 rfl)

end S3Uploader
